import Mathlib

set_option maxRecDepth 100000

/-!
Shallow embedding of the EarthCARE data downloader
(`src/earthcare_downloader.py`, class `EarthCareDownloader`) and proofs
about its search-and-retrieval pipeline: product-name resolution,
query-template substitution, baseline selection, the per-file download
loop with retry/skip semantics, and the CSV-driven orchestrator.

Python strings are modelled as Lean `String`s (operating on `.data`
character lists where needed); fallible code returns `Except String`;
the filesystem state of the download directory is a list of file names;
network and transport effects are supplied as explicit environment
functions.
-/

namespace EarthCare

/-! ## Python string primitives -/

/-- Python `str.replace`: replace every non-overlapping occurrence of `pat`
by `sub`, scanning left to right.  Fuel-driven; fuel equal to the length of
the scanned list suffices because each step consumes at least one character
when the pattern is non-empty. -/
def replChars (pat sub : List Char) : Nat → List Char → List Char
  | _, [] => []
  | 0, s => s
  | fuel+1, c :: cs =>
    if pat ≠ [] ∧ pat.isPrefixOf (c :: cs) then
      sub ++ replChars pat sub fuel ((c :: cs).drop pat.length)
    else
      c :: replChars pat sub fuel cs

/-- Python `str.replace` on `String`. -/
def pyReplace (s pat sub : String) : String :=
  ⟨replChars pat.data sub.data s.data.length s.data⟩

/-- Python `str.lower` (ASCII). -/
def pyLower (s : String) : String := ⟨s.data.map Char.toLower⟩

/-- Python `str.upper` (ASCII). -/
def pyUpper (s : String) : String := ⟨s.data.map Char.toUpper⟩

/-- Python `s[0:n]`. -/
def takeStr (s : String) (n : Nat) : String := ⟨s.data.take n⟩

/-- Python `s[n:]`. -/
def dropStr (s : String) (n : Nat) : String := ⟨s.data.drop n⟩

/-- Substring occurrence test on character lists. -/
def infixOf (pat : List Char) : List Char → Bool
  | [] => pat.isEmpty
  | c :: cs => pat.isPrefixOf (c :: cs) || infixOf pat cs

/-- Python `a in b` on strings (substring test). -/
def pyIn (pat s : String) : Bool :=
  infixOf pat.data s.data

/-- Python `s[0:-2]`. -/
def dropLast2 (s : String) : String :=
  ⟨s.data.take (s.data.length - 2)⟩

/-! ## Product Catalog Resolver (`string_to_product_name`) -/

/-- The catalog table of valid EarthCARE product type codes, verbatim from
`string_to_product_name`. -/
def file_types : List String := [
  "ATL_NOM_1B", "ATL_DCC_1B", "ATL_CSC_1B", "ATL_FSC_1B",
  "MSI_NOM_1B", "MSI_BBS_1B", "MSI_SD1_1B", "MSI_SD2_1B",
  "BBR_NOM_1B", "BBR_SNG_1B", "BBR_SOL_1B", "BBR_LIN_1B",
  "CPR_NOM_1B",
  "MSI_RGR_1C",
  "AUX_MET_1D", "AUX_JSG_1D",
  "ATL_FM__2A", "ATL_AER_2A", "ATL_ICE_2A", "ATL_TC__2A",
  "ATL_EBD_2A", "ATL_CTH_2A", "ATL_ALD_2A",
  "MSI_CM__2A", "MSI_COP_2A", "MSI_AOT_2A",
  "CPR_FMR_2A", "CPR_CD__2A", "CPR_TC__2A", "CPR_CLD_2A", "CPR_APC_2A",
  "AM__MO__2B", "AM__CTH_2B", "AM__ACD_2B",
  "AC__TC__2B",
  "BM__RAD_2B", "BMA_FLX_2B",
  "ACM_CAP_2B", "ACM_COM_2B", "ACM_RT__2B",
  "ALL_DF__2B", "ALL_3D__2B",
  "MPL_ORBSCT", "AUX_ORBPRE", "AUX_ORBRES"]

/-- `input_string.replace(' ','').replace('-','').replace('_','').lower()`. -/
def normalizeProductInput (s : String) : String :=
  pyLower (pyReplace (pyReplace (pyReplace s " " "") "-" "") "_" "")

/-- The instrument-abbreviation substitutions applied to derive the short
form of a product name. -/
def string_replacements : List (String × String) :=
  [("atl", "a"), ("msi", "m"), ("bbr", "b"), ("cpr", "c"), ("aux", "x")]

/-- `long_name = file_type.replace('_', '').lower()`. -/
def longNameOf (ft : String) : String := pyLower (pyReplace ft "_" "")

/-- `medium_name = long_name[0:-2]`. -/
def mediumNameOf (ft : String) : String := dropLast2 (longNameOf ft)

/-- The derived short form: the medium name with each instrument token
replaced by its one-letter abbreviation, in the order of
`string_replacements`. -/
def shortNameOf (ft : String) : String :=
  string_replacements.foldl (fun acc p => pyReplace acc p.1 p.2) (mediumNameOf ft)

/-- `expected_inputs` for one catalog entry: long, medium and short form,
plus the two `acmb`-substituted aliases for codes beginning with `ALL_`. -/
def expectedInputsOf (ft : String) : List String :=
  let base := [longNameOf ft, mediumNameOf ft, shortNameOf ft]
  if takeStr ft 4 = "ALL_" then
    base ++ ["acmb" ++ dropStr (longNameOf ft) 3,
             "acmb" ++ dropStr (shortNameOf ft) 3]
  else base

/-- The upper-cased short names collected for the error message. -/
def productShortNames : List String :=
  file_types.map (fun ft => pyUpper (shortNameOf ft))

/-- The table layout used in the error message: a `\n` before every sixth
name, a `\t` before the others. -/
def tableMsg (names : List String) : String :=
  (names.enum.foldl
    (fun acc p => acc ++ (if p.1 % 6 == 0 then "\n" else "\t") ++ p.2) "")

/-- The `ValueError` message raised for an unrecognised product input. -/
def productErrorMsg (input_string : String) : String :=
  "The user input \"" ++ input_string ++
    "\" is either not a valid product name or not supported by this function.\n" ++
    tableMsg file_types ++
    "\n\nor use the respective short forms (additional non letter characters like - or _ are also allowed, e.g. A-NOM):\n" ++
    tableMsg productShortNames

/-- `string_to_product_name`: scan the catalog in order and return the first
entry whose alias set contains the normalised input; raise `ValueError`
(modelled as `Except.error`) otherwise. -/
def string_to_product_name (input_string : String) : Except String String :=
  match file_types.find?
      (fun ft => (expectedInputsOf ft).contains (normalizeProductInput input_string)) with
  | some ft => .ok ft
  | none => .error (productErrorMsg input_string)

/-! ## Datetime handling (`format_datetime_string` and the row-loop
fractional-second truncation) -/

/-- Python `s.split(sep)` for a one-character separator (`"".split` gives
`[""]`, of a trailing separator gives a trailing `""`). -/
def splitChar (sep : Char) : List Char → List (List Char)
  | [] => [[]]
  | c :: cs =>
    if c = sep then [] :: splitChar sep cs
    else
      match splitChar sep cs with
      | [] => [[c]]
      | h :: t => (c :: h) :: t

/-- Python `s.split(sep)` on `String`. -/
def pySplit (s : String) (sep : Char) : List String :=
  (splitChar sep s.data).map (fun l => ⟨l⟩)

/-- The time-string truncation performed per row in `download_from_csv`:
if the time contains a dot and more than 3 digits follow the first dot,
keep only the first 3 characters after it (dropping everything else). -/
def truncateTimeStr (time_str : String) : String :=
  if pyIn "." time_str then
    let time_parts := pySplit time_str '.'
    if (time_parts.getD 1 "").length > 3 then
      time_parts.getD 0 "" ++ "." ++ takeStr (time_parts.getD 1 "") 3
    else time_str
  else time_str

/-- `\d{4}-\d{2}-\d{2}` as a full-string shape. -/
def isDateShape (l : List Char) : Bool :=
  match l with
  | [y1, y2, y3, y4, s1, m1, m2, s2, d1, d2] =>
    y1.isDigit && y2.isDigit && y3.isDigit && y4.isDigit && s1 == '-' &&
      m1.isDigit && m2.isDigit && s2 == '-' && d1.isDigit && d2.isDigit
  | _ => false

/-- `\d{2}:\d{2}:\d{2}` as a full-string shape. -/
def isHmsShape (l : List Char) : Bool :=
  match l with
  | [h1, h2, s1, m1, m2, s2, c1, c2] =>
    h1.isDigit && h2.isDigit && s1 == ':' && m1.isDigit && m2.isDigit &&
      s2 == ':' && c1.isDigit && c2.isDigit
  | _ => false

/-- The fractional part accepted after the whole-second time: a dot followed
by one or more digits, or nothing. -/
def isFracShape (l : List Char) : Bool :=
  match l with
  | [] => true
  | '.' :: f => !f.isEmpty && f.all Char.isDigit
  | _ => false

/-- Modelled domain of `pd.Timestamp` parsing as exercised by the
orchestrator: a timezone-naive `"YYYY-MM-DD HH:MM:SS[.fff...]"` string,
returned as (date text, whole-second time text, fractional digits). -/
def parseNaiveTimestamp (s : String) : Option (String × String × String) :=
  match pySplit s ' ' with
  | [d, t] =>
    if isDateShape d.data then
      let hms := takeStr t 8
      let rest := dropStr t 8
      if isHmsShape hms.data && isFracShape rest.data then
        some (d, hms, rest)
      else none
    else none
  | _ => none

/-- `format_datetime_string`: `pd.Timestamp(datetime_string)`, localised to
UTC when naive, then `strftime('%Y-%m-%dT%XZ')`.  `%X` in the default C
locale is `%H:%M:%S`, so any fractional-second digits are discarded.
An unparseable string raises (modelled as `Except.error`); localising a
naive timestamp to UTC does not change the printed clock reading. -/
def format_datetime_string (datetime_string : String) : Except String String :=
  match parseNaiveTimestamp datetime_string with
  | some (d, hms, _frac) => .ok (d ++ "T" ++ hms ++ "Z")
  | none => .error ("could not parse datetime string: " ++ datetime_string)

/-! ## Tabular input: datetime-column detection (`_find_datetime_columns`) -/

/-- One row of the normalised tabular input; cells are kept as the strings
pandas would render (`"nan"` standing for a missing value). -/
structure DataFrame where
  cols : List String
  cells : List (List String)
deriving DecidableEq, Repr

/-- Python `str.strip`. -/
def pyStrip (s : String) : String :=
  ⟨((s.data.dropWhile Char.isWhitespace).reverse.dropWhile Char.isWhitespace).reverse⟩

/-- Value of column `col` in `row` (`"nan"` for an absent cell). -/
def cellVal (df : DataFrame) (row : List String) (col : String) : String :=
  match df.cols.indexOf? col with
  | some i => row.getD i "nan"
  | none => "nan"

/-- `str(df[col].iloc[0]) if not df[col].empty else ''`. -/
def sampleValue (df : DataFrame) (col : String) : String :=
  match df.cells with
  | [] => ""
  | r :: _ => cellVal df r col

def date_patterns : List String := ["yyyy-mm-dd", "date", "fecha", "day"]

def time_patterns : List String := ["hh:mm:ss.sss", "hh:mm:ss", "time", "hora", "hour"]

/-- Second-pass match: `pattern in col_lower or col_lower in pattern`. -/
def partialPatternMatch (patterns : List String) (col : String) : Bool :=
  let col_lower := pyStrip (pyLower col)
  patterns.any (fun pat => pyIn pat col_lower || pyIn col_lower pat)

/-- `re.match(r'\d{4}-\d{2}-\d{2}', v)`: anchored at the start, longer
strings allowed. -/
def matchesDateRe (v : String) : Bool := isDateShape (v.data.take 10)

/-- `re.match(r'\d{2}:\d{2}:\d{2}', v)`. -/
def matchesTimeRe (v : String) : Bool := isHmsShape (v.data.take 8)

/-- Python truthiness of a column-name slot: an empty name behaves like an
unset slot (`if not date_col`). -/
def normSlot (o : Option String) : Option String :=
  match o with
  | some "" => none
  | x => x

/-- `_find_datetime_columns`: exact header match (last hit wins, the loop
overwrites), then substring match against keyword lists (first hit), then
content sniffing on the first data row (first hit). -/
def find_datetime_columns (df : DataFrame) : Option String × Option String :=
  let dateExact := (df.cols.filter (fun c => pyStrip (pyLower c) == "yyyy-mm-dd")).getLast?
  let timeExact := (df.cols.filter (fun c =>
    pyStrip (pyLower c) == "hh:mm:ss.sss" || pyStrip (pyLower c) == "hh:mm:ss")).getLast?
  let dateCol := match normSlot dateExact with
    | some c => some c
    | none => df.cols.find? (partialPatternMatch date_patterns)
  let timeCol := match normSlot timeExact with
    | some c => some c
    | none => df.cols.find? (partialPatternMatch time_patterns)
  let dateCol := match normSlot dateCol with
    | some c => some c
    | none => df.cols.find? (fun c => matchesDateRe (sampleValue df c))
  let timeCol := match normSlot timeCol with
    | some c => some c
    | none => df.cols.find? (fun c => matchesTimeRe (sampleValue df c))
  (normSlot dateCol, normSlot timeCol)

/-! ## Search Query Builder (`get_api_request`)

A specialised engine for the three regular expressions the function uses,
with Python `re` semantics: leftmost scan, non-overlapping matches, lazy
`.*?` stopping at the first closing brace, `.` not matching a newline. -/

/-- Length (including the closing brace) of the lazy `.*?\x7d` match starting
here: the distance to the first closing brace, provided no newline comes
first. -/
def lazyCloseLen : List Char → Option Nat
  | [] => none
  | c :: cs =>
    if c = '}' then some 1
    else if c = '\n' then none
    else (lazyCloseLen cs).map (· + 1)

/-- `re.subn(r'\x7b' + p + r'.*?\x7d', v, s)`: replace every non-overlapping
occurrence, scanning left to right, and count the replacements. -/
def substPlaceholder (p v : List Char) : Nat → List Char → List Char × Nat
  | _, [] => ([], 0)
  | 0, s => (s, 0)
  | fuel+1, c :: cs =>
    if c = '{' ∧ p.isPrefixOf cs then
      match lazyCloseLen (cs.drop p.length) with
      | some k =>
        let rest := substPlaceholder p v fuel (cs.drop (p.length + k))
        (v ++ rest.1, rest.2 + 1)
      | none =>
        let rest := substPlaceholder p v fuel cs
        (c :: rest.1, rest.2)
    else
      let rest := substPlaceholder p v fuel cs
      (c :: rest.1, rest.2)

def isAsciiLetter (c : Char) : Bool :=
  ('a' ≤ c && c ≤ 'z') || ('A' ≤ c && c ≤ 'Z')

/-- Match `[a-zA-Z]*=\x7b.*?\x7d` at the head of `s`; returns the match
length.  The greedy letter run needs no backtracking because a letter can
never satisfy the following `=`. -/
def matchEqBrace (s : List Char) : Option Nat :=
  let letters := s.takeWhile isAsciiLetter
  match s.drop letters.length with
  | '=' :: '{' :: r2 =>
    match lazyCloseLen r2 with
    | some k => some (letters.length + 2 + k)
    | none => none
  | _ => none

/-- Match `&?[a-zA-Z]*=\x7b.*?\x7d` at the head of `s` (the optional `&` is
tried first, as the regex engine prefers). -/
def matchKeyEq (s : List Char) : Option Nat :=
  match s with
  | '&' :: r =>
    (match matchEqBrace r with
     | some k => some (k + 1)
     | none => matchEqBrace s)
  | _ => matchEqBrace s

/-- `re.sub(r'&?[a-zA-Z]*=\x7b.*?\x7d', '', s)`. -/
def stripKeyEq : Nat → List Char → List Char
  | _, [] => []
  | 0, s => s
  | fuel+1, c :: cs =>
    match matchKeyEq (c :: cs) with
    | some k => stripKeyEq fuel ((c :: cs).drop k)
    | none => c :: stripKeyEq fuel cs

/-- Match `.?\x7b.*?\x7d` at the head of `s`: the optional leading
(non-newline) character is tried first, then the bare brace group. -/
def matchDotBrace (s : List Char) : Option Nat :=
  let bare : Option Nat :=
    match s with
    | '{' :: r => (lazyCloseLen r).map (· + 1)
    | _ => none
  match s with
  | c :: '{' :: r2 =>
    if c ≠ '\n' then
      match lazyCloseLen r2 with
      | some k => some (2 + k)
      | none => bare
    else bare
  | _ => bare

/-- `re.sub(r'.?\x7b.*?\x7d', '', s)`. -/
def stripDotBrace : Nat → List Char → List Char
  | _, [] => []
  | 0, s => s
  | fuel+1, c :: cs =>
    match matchDotBrace (c :: cs) with
    | some k => stripDotBrace fuel ((c :: cs).drop k)
    | none => c :: stripDotBrace fuel cs

/-- `template.replace('[','\x7b').replace(']','\x7d')`. -/
def bracketTranslate (l : List Char) : List Char :=
  l.map (fun c => if c = '[' then '{' else if c = ']' then '}' else c)

/-- One `get_api_request` loop iteration for parameter `p` with value `v`:
substitute into every matching placeholder, trying the bare name first and
the `os:`-namespaced name second, collecting the printed `ERROR:`
diagnostics (non-fatal) when neither matches. -/
def substParam (st : List Char × List String) (pv : String × String) :
    List Char × List String :=
  let (tpl, diags) := st
  let (p, v) := pv
  let r1 := substPlaceholder p.data v.data tpl.length tpl
  if r1.2 ≥ 1 then (r1.1, diags)
  else if pyIn ":" p then
    (r1.1, diags ++ ["ERROR: parameter " ++ p ++ " not found in template."])
  else
    let r2 := substPlaceholder ("os:" ++ p).data v.data r1.1.length r1.1
    if r2.2 ≥ 1 then (r2.1, diags)
    else (r2.1, diags ++ ["ERROR: parameter os:" ++ p ++ " not found in template."])

/-- `get_api_request`: fill the OpenSearch URL template with the supplied
parameter values, strip every remaining unfilled `key=\x7b...\x7d` fragment
and any other unfilled brace group, then translate the square brackets used
for list-valued parameters into braces.  The `print` diagnostics are
returned alongside the result. -/
def get_api_request (template : String) (os_querystring : List (String × String)) :
    String × List String :=
  let (tpl, diags) := os_querystring.foldl substParam (template.data, [])
  let tpl := stripKeyEq tpl.length tpl
  let tpl := stripDotBrace tpl.length tpl
  (⟨bracketTranslate tpl⟩, diags)

/-- Modelled from the claim's wording, for comparison with the code: a
variant that substitutes a parameter's value into only the FIRST placeholder
whose name matches. -/
def substPlaceholderFirstOnly (p v : List Char) : Nat → List Char → List Char × Nat
  | _, [] => ([], 0)
  | 0, s => (s, 0)
  | fuel+1, c :: cs =>
    if c = '{' ∧ p.isPrefixOf cs then
      match lazyCloseLen (cs.drop p.length) with
      | some k => (v ++ cs.drop (p.length + k), 1)
      | none =>
        let rest := substPlaceholderFirstOnly p v fuel cs
        (c :: rest.1, rest.2)
    else
      let rest := substPlaceholderFirstOnly p v fuel cs
      (c :: rest.1, rest.2)

/-- Modelled from the claim's wording: `get_api_request` with first-match-only
substitution, used to exhibit where the code's replace-all behaviour
diverges from the claim. -/
def get_api_request_first_only (template : String)
    (os_querystring : List (String × String)) : String × List String :=
  let step := fun (st : List Char × List String) (pv : String × String) =>
    let (tpl, diags) := st
    let (p, v) := pv
    let r1 := substPlaceholderFirstOnly p.data v.data tpl.length tpl
    if r1.2 ≥ 1 then (r1.1, diags)
    else if pyIn ":" p then
      (r1.1, diags ++ ["ERROR: parameter " ++ p ++ " not found in template."])
    else
      let r2 := substPlaceholderFirstOnly ("os:" ++ p).data v.data r1.1.length r1.1
      if r2.2 ≥ 1 then (r2.1, diags)
      else (r2.1, diags ++ ["ERROR: parameter os:" ++ p ++ " not found in template."])
  let (tpl, diags) := os_querystring.foldl step (template.data, [])
  let tpl := stripKeyEq tpl.length tpl
  let tpl := stripDotBrace tpl.length tpl
  (⟨bracketTranslate tpl⟩, diags)

/-! ## Search results and the Baseline Selector (`filter_by_baseline`) -/

/-- One row of the Atom result set as `load_dataframe` builds it: the
`dc:identifier` text and the `enclosure` link (the download URL); the
server host is derived from the enclosure. -/
structure SearchEntry where
  identifier : String
  enclosure : String
deriving DecidableEq, Repr

/-- The characters after the first `"://"`, if any. -/
def afterScheme : List Char → Option (List Char)
  | [] => none
  | c :: cs =>
    if [':', '/', '/'].isPrefixOf (c :: cs) then some ((c :: cs).drop 3)
    else afterScheme cs

/-- `urlparse(url).netloc`: the host part between the scheme separator and
the next path/query/fragment delimiter (empty when the URL has no scheme). -/
def serverOf (url : String) : String :=
  match afterScheme url.data with
  | some rest => ⟨rest.takeWhile (fun c => c ≠ '/' && c ≠ '?' && c ≠ '#')⟩
  | none => ""

def isUpperAZ (c : Char) : Bool := 'A' ≤ c && c ≤ 'Z'

/-- The `ECA_EX([A-Z]\x7b2\x7d)_` pattern at the head of `l`. -/
def baselineAt (l : List Char) : Option String :=
  match l with
  | 'E' :: 'C' :: 'A' :: '_' :: 'E' :: 'X' :: b1 :: b2 :: '_' :: _ =>
    if isUpperAZ b1 && isUpperAZ b2 then some ⟨[b1, b2]⟩ else none
  | _ => none

/-- `Series.str.extract(r'ECA_EX([A-Z]\x7b2\x7d)_')`: the captured group of
the leftmost match, if any (`NaN`, i.e. `none`, otherwise). -/
def extractBaselineList : List Char → Option String
  | [] => none
  | c :: cs =>
    match baselineAt (c :: cs) with
    | some b => some b
    | none => extractBaselineList cs

def extractBaseline (s : String) : Option String := extractBaselineList s.data

/-- The count table of `value_counts`, keys in first-seen order. -/
def countsFirstSeen (l : List String) : List (String × Nat) :=
  l.foldl (fun acc x =>
    if acc.any (fun p => p.1 == x) then
      acc.map (fun p => if p.1 == x then (p.1, p.2 + 1) else p)
    else acc ++ [(x, 1)]) []

/-- `value_counts().index[0]`: the key with the highest count; among equal
counts the first-seen key wins (pandas' stable descending ordering). -/
def selectTopBaseline (counts : List (String × Nat)) : Option String :=
  match counts with
  | [] => none
  | c :: cs => some (cs.foldl (fun best p => if p.2 > best.2 then p else best) c).1

/-- The `baseline` column: each entry's extracted tag. -/
def baselineTags (entries : List SearchEntry) : List (Option String) :=
  entries.map (fun e => extractBaseline e.identifier)

/-- `value_counts()` of the baseline column (`NaN` tags dropped), keys in
first-seen order. -/
def baselineTable (entries : List SearchEntry) : List (String × Nat) :=
  countsFirstSeen ((baselineTags entries).filterMap id)

/-- `dataframe[dataframe['baseline'] == selected_baseline]`. -/
def baselineFiltered (entries : List SearchEntry) (b : String) : List SearchEntry :=
  entries.filter (fun e => extractBaseline e.identifier == some b)

/-- `filter_by_baseline`: tag every entry with its extracted baseline; pick
the requested baseline, or the most frequent one when none was requested;
keep exactly the entries bearing the chosen tag.  An empty input, a result
set with no extractable tags, or a chosen baseline matching nothing all
return an empty set with no chosen baseline — warnings, not errors. -/
def filter_by_baseline (requested : Option String) (entries : List SearchEntry) :
    List SearchEntry × Option String :=
  if entries.isEmpty then (entries, none)
  else
    let selected : Option String :=
      match requested with
      | none => selectTopBaseline (baselineTable entries)
      | some b => some b
    match selected with
    | none => ([], none)
    | some b =>
      let filtered := baselineFiltered entries b
      if filtered.isEmpty then ([], none) else (filtered, some b)

/-! ## Authenticated Download Session (`download_products`) -/

/-- `url.split("/")[-1]`. -/
def fileNameOf (url : String) : String := (pySplit url '/').getLastD ""

/-- `file_name.split('.')[0]`. -/
def stemOf (name : String) : String := (pySplit name '.').headD ""

/-- Python `a.startswith(b)`. -/
def pyStartsWith (s pre : String) : Bool := pre.data.isPrefixOf s.data

/-- Python `a.endswith(b)`. -/
def pyEndsWith (s suf : String) : Bool := suf.data.isSuffixOf s.data

/-- `file_path[0:-4] if file_path.endswith('.zip') else file_path`, at the
file-name level (every path in the check lives in the download directory,
so stripping the path suffix is stripping the name suffix). -/
def noZipName (name : String) : String :=
  if pyEndsWith name ".zip" then ⟨name.data.take (name.data.length - 4)⟩ else name

/-- The enhanced existence check of `download_products` over the download
directory contents `disk`: exact name, name without a trailing `.zip`, name
with `.zip` appended, or any directory entry starting with the name's stem
(the `os.path.exists(os.path.join(...))` probe is a tautology for names
taken from `os.listdir`). -/
def fileExistsCheck (disk : List String) (file_name : String) : Bool :=
  disk.contains file_name ||
  disk.contains (noZipName file_name) ||
  disk.contains (file_name ++ ".zip") ||
  disk.any (fun f => pyStartsWith f (stemOf file_name))

/-- The override branch: `os.remove` each of the three variant paths that
exists. -/
def removeVariants (disk : List String) (file_name : String) : List String :=
  disk.filter (fun f =>
    !(f == file_name || f == noZipName file_name || f == file_name ++ ".zip"))

/-- The `for attempt in range(max_retries)` loop for one file: try
`start, start+1, ...` while attempts remain; report the successful attempt
index (if any) and the number of `time.sleep(2)` backoff waits performed
(one per failed attempt, including the last). -/
def attemptLoop (try_ : Nat → Bool) (start remaining : Nat) : Option Nat × Nat :=
  match remaining with
  | 0 => (none, 0)
  | r + 1 =>
    if try_ start then (some start, 0)
    else
      let rest := attemptLoop try_ (start + 1) r
      (rest.1, rest.2 + 1)

/-- Outcome of handling one result entry inside a host group. -/
structure EntryOutcome where
  downloaded : List String
  skipped : List String
  failed : List String
  disk : List String
  sleeps : Nat
deriving DecidableEq, Repr

/-- `max_retries = 3`. -/
def max_retries : Nat := 3

/-- The download attempt phase for one file (reached when the file is absent
or was just override-deleted): up to `max_retries` streamed GETs; a success
writes the file and records it as downloaded, exhaustion records it as
failed; a transport exception only ever triggers the backoff-and-retry
path, never an escape. -/
def attemptPhase (transport : String → Nat → Bool) (disk : List String)
    (file_name : String) : EntryOutcome :=
  let r := attemptLoop (transport file_name) 0 max_retries
  match r.1 with
  | some _k =>
    { downloaded := [file_name], skipped := [], failed := [],
      disk := disk ++ [file_name], sleeps := r.2 }
  | none =>
    { downloaded := [], skipped := [], failed := [file_name],
      disk := disk, sleeps := r.2 }

/-- Handling of one result entry: the existence check, the skip/override
branches, then the attempt phase. -/
def processEntry (transport : String → Nat → Bool) (is_override : Bool)
    (disk : List String) (e : SearchEntry) : EntryOutcome :=
  let file_name := fileNameOf e.enclosure
  if fileExistsCheck disk file_name then
    if is_override then
      attemptPhase transport (removeVariants disk file_name) file_name
    else
      { downloaded := [], skipped := [file_name], failed := [],
        disk := disk, sleeps := 0 }
  else attemptPhase transport disk file_name

/-- Accumulator used across host groups. -/
structure DPState where
  downloaded : List String
  skipped : List String
  failed : List String
  disk : List String
deriving DecidableEq, Repr

def dpStep (transport : String → Nat → Bool) (is_override : Bool)
    (st : DPState) (e : SearchEntry) : DPState :=
  let r := processEntry transport is_override st.disk e
  { downloaded := st.downloaded ++ r.downloaded,
    skipped := st.skipped ++ r.skipped,
    failed := st.failed ++ r.failed,
    disk := r.disk }

/-- Lexicographic code-point order on strings, as pandas sorts group keys. -/
def charListLe : List Char → List Char → Bool
  | [], _ => true
  | _ :: _, [] => false
  | a :: as, b :: bs => if a = b then charListLe as bs else decide (a < b)

def insertSorted (x : String) : List String → List String
  | [] => [x]
  | y :: ys => if charListLe x.data y.data then x :: y :: ys else y :: insertSorted x ys

def sortStrings (l : List String) : List String := l.foldr insertSorted []

def dedupFirstAux (seen : List String) : List String → List String
  | [] => []
  | x :: xs =>
    if seen.contains x then dedupFirstAux seen xs
    else x :: dedupFirstAux (seen ++ [x]) xs

def dedupFirst (l : List String) : List String := dedupFirstAux [] l

/-- The distinct servers of a result set in the order `groupby('server')`
yields them: sorted ascending. -/
def serversOf (entries : List SearchEntry) : List String :=
  sortStrings (dedupFirst (entries.map (fun e => serverOf e.enclosure)))

/-- Result of `download_products`: `.error` models the `IndexError` raised
when an authentication page misses an expected hidden form field, which
aborts the whole call; files already written stay on disk either way. -/
structure DPResult where
  res : Except String (List String × List String × List String)
  disk : List String
deriving Repr

/-- The per-host loop of `download_products`: authenticate (steps 1-4 of the
SSO handshake — `authOk` tells whether the login/assertion pages carry the
expected hidden fields), then process the host's entries in result order.
The best-effort logout never affects the outcome and is not modelled. -/
def dpGroups (authOk : String → Bool) (transport : String → Nat → Bool)
    (is_override : Bool) (entries : List SearchEntry) :
    List String → DPState → DPResult
  | [], st => ⟨.ok (st.downloaded, st.skipped, st.failed), st.disk⟩
  | srv :: rest, st =>
    if authOk srv then
      let st := (entries.filter (fun e => serverOf e.enclosure == srv)).foldl
        (dpStep transport is_override) st
      dpGroups authOk transport is_override entries rest st
    else ⟨.error ("list index out of range: no sessionDataKey on " ++ srv), st.disk⟩

/-- `download_products`. -/
def download_products (authOk : String → Bool) (transport : String → Nat → Bool)
    (entries : List SearchEntry) (disk : List String) (is_override : Bool) :
    DPResult :=
  dpGroups authOk transport is_override entries (serversOf entries)
    ⟨[], [], [], disk⟩

/-! ## Orchestrator (`download_from_csv`) -/

/-- One element of the run summary's `errors` list: either a bare message
(critical / input errors) or the per-row record dict. -/
inductive ErrEntry where
  | msg (s : String)
  | record (entry : Nat) (datetime : String) (error : String) (orbit : Option String)
deriving DecidableEq, Repr

/-- The run summary accumulated by `download_from_csv` (the wall-clock
fields `start_time`/`end_time`/`execution_time` carry no verified content
and are not modelled). -/
structure Summary where
  total_entries : Nat
  processed_entries : Nat
  downloaded_files : List String
  skipped_files : List String
  failed_files : List String
  errors : List ErrEntry
deriving DecidableEq, Repr

/-- The network/transport environment of one run: the (stubbed) template
fetch, the per-row search result, per-host authentication-page health, and
the per-file per-attempt transport outcome.  All are fixed functions, so a
run is deterministic. -/
structure Env where
  templateFetch : Except String String
  rowSearch : Nat → Except String (List SearchEntry)
  authOk : String → Bool
  transport : String → Nat → Bool

/-- `pd.notna` on a rendered cell. -/
def pyNotna (v : String) : Bool := v != "nan"

/-- `str(int(v))` on a rendered numeric cell: digit strings pass through,
anything else raises `ValueError`. -/
def pyIntStr (v : String) : Except String String :=
  if v.data ≠ [] ∧ v.data.all Char.isDigit then .ok v
  else .error ("invalid literal for int() with base 10: " ++ v)

/-- `row.get(orbit_column, 'N/A') if orbit_column and orbit_column in
df.columns else 'N/A'` — the orbit value recorded in a row's error entry
(`none` models `'N/A'`). -/
def orbitValOf (df : DataFrame) (row : List String) (orbit_column : Option String) :
    Option String :=
  match orbit_column with
  | some oc => if df.cols.contains oc then some (cellVal df row oc) else none
  | none => none

/-- Classification of one row before any disk state is consulted: a raised
exception (with the data needed for its error record), an empty
baseline-filtered result, or a non-empty filtered result handed to the
download session.  The classification is independent of the download
directory contents. -/
inductive RowClass where
  | err (datetime_str : String) (e : String) (orbit : Option String)
  | empty
  | group (filtered : List SearchEntry) (datetime_str : String) (orbit : Option String)
deriving Repr

/-- Per-row processing up to the download call, mirroring the body of the
row `try`: fetch the date and time cells, truncate fractional seconds,
format the timestamp (may raise), convert the orbit cell (may raise), run
the search (may raise), filter by baseline. -/
def rowClass (env : Env) (df : DataFrame) (date_col time_col : String)
    (orbit_column : Option String) (requestedBaseline : Option String)
    (i : Nat) (row : List String) : RowClass :=
  let date_str := cellVal df row date_col
  let time_str := truncateTimeStr (cellVal df row time_col)
  let datetime_str := date_str ++ " " ++ time_str
  let orbitv := orbitValOf df row orbit_column
  match format_datetime_string datetime_str with
  | .error e => .err datetime_str e orbitv
  | .ok _formatted =>
    let orbitParam : Except String (Option String) :=
      match orbit_column with
      | some oc =>
        if df.cols.contains oc then
          let v := cellVal df row oc
          if pyNotna v then (pyIntStr v).map some else .ok none
        else .ok none
      | none => .ok none
    match orbitParam with
    | .error e => .err datetime_str e orbitv
    | .ok _ =>
      match env.rowSearch i with
      | .error e => .err datetime_str e orbitv
      | .ok entries =>
        let (filtered, _sel) := filter_by_baseline requestedBaseline entries
        if filtered.isEmpty then .empty else .group filtered datetime_str orbitv

/-- Mutable state of the row loop. -/
structure LoopState where
  disk : List String
  processed : Nat
  downloaded : List String
  skipped : List String
  failed : List String
  errors : List ErrEntry
deriving DecidableEq, Repr

/-- One iteration of the row loop: an exception appends exactly one error
record and moves on; an empty filtered set is logged and skipped; otherwise
the download session runs and the processed count rises by one regardless
of the per-file outcomes (an exception raised inside the session — the
malformed-login case — lands in the row's error record instead). -/
def rowStep (env : Env) (df : DataFrame) (date_col time_col : String)
    (orbit_column : Option String) (requestedBaseline : Option String)
    (is_override : Bool) (st : LoopState) (i : Nat) (row : List String) :
    LoopState :=
  match rowClass env df date_col time_col orbit_column requestedBaseline i row with
  | .err dt e orb => { st with errors := st.errors ++ [.record (i + 1) dt e orb] }
  | .empty => st
  | .group filtered dt orb =>
    let dp := download_products env.authOk env.transport filtered st.disk is_override
    match dp.res with
    | .ok (d, s, f) =>
      { st with
        disk := dp.disk,
        downloaded := st.downloaded ++ d,
        skipped := st.skipped ++ s,
        failed := st.failed ++ f,
        processed := st.processed + 1 }
    | .error e =>
      { st with disk := dp.disk, errors := st.errors ++ [.record (i + 1) dt e orb] }

/-- `for index, row in df.iterrows()`. -/
def rowLoop (env : Env) (df : DataFrame) (date_col time_col : String)
    (orbit_column : Option String) (requestedBaseline : Option String)
    (is_override : Bool) : Nat → List (List String) → LoopState → LoopState
  | _, [], st => st
  | i, row :: rest, st =>
    rowLoop env df date_col time_col orbit_column requestedBaseline is_override
      (i + 1) rest
      (rowStep env df date_col time_col orbit_column requestedBaseline
        is_override st i row)

/-- `product_names = [self.string_to_product_name(prod) for prod in
products]`: resolution stops at the first failure, which raises. -/
def resolveProducts : List String → Except String (List String)
  | [] => .ok []
  | p :: ps =>
    match string_to_product_name p with
    | .error e => .error e
    | .ok n =>
      match resolveProducts ps with
      | .error e => .error e
      | .ok ns => .ok (n :: ns)

/-- The files `_save_execution_summary` writes into the download directory,
named with the run's timestamp suffix: the summary and detailed-log text
files always, an errors CSV when any error was recorded. -/
def summaryFileNames (ts : String) (errorsNonempty : Bool) : List String :=
  ["download_summary_" ++ ts ++ ".txt", "download_log_" ++ ts ++ ".txt"] ++
    (if errorsNonempty then ["download_errors_" ++ ts ++ ".csv"] else [])

/-- The fresh summary built at the top of `download_from_csv`. -/
def initSummary : Summary :=
  { total_entries := 0, processed_entries := 0, downloaded_files := [],
    skipped_files := [], failed_files := [], errors := [] }

/-- Result of one `download_from_csv` call: `.error` would be an exception
escaping to the caller; `disk` is the final download-directory content and
`netContact` records whether execution reached the first network request
site of the run (the template-fetch GET — every other request comes after
it), i.e. whether any network call was made or attempted. -/
structure RunOut where
  result : Except String Summary
  disk : List String
  netContact : Bool
deriving Repr

/-- The error message of the missing-datetime-columns early return. -/
def datetimeColsErrMsg (df : DataFrame) : String :=
  "Could not automatically detect date/time columns. Available columns: " ++
    String.intercalate ", " df.cols

/-- `download_from_csv`: detect the datetime columns (missing columns
append an error and return the summary before any network call); resolve
every product name (a failure raises into the outer handler, still before
any network call); fetch the search template (first network call); run the
row loop; then compute timings, write the summary/log files and return the
summary.  The outer `except` converts any escaped exception into a
`Critical error during execution:` entry and falls through to the same
summary-saving tail, so no exception leaves the function. -/
def download_from_csv (env : Env) (df : DataFrame) (products : List String)
    (orbit_column : Option String) (is_override : Bool)
    (requestedBaseline : Option String) (disk : List String) (ts : String) :
    RunOut :=
  match find_datetime_columns df with
  | (some date_col, some time_col) =>
    (match resolveProducts products with
     | .error e =>
       let summary := { initSummary with
         errors := [.msg ("Critical error during execution: " ++ e)] }
       ⟨.ok summary, disk ++ summaryFileNames ts true, false⟩
     | .ok _product_names =>
       match env.templateFetch with
       | .error e =>
         let summary := { initSummary with
           errors := [.msg ("Critical error during execution: " ++ e)] }
         ⟨.ok summary, disk ++ summaryFileNames ts true, true⟩
       | .ok _template =>
         let st := rowLoop env df date_col time_col orbit_column
           requestedBaseline is_override 0 df.cells
           ⟨disk, 0, [], [], [], []⟩
         let summary : Summary :=
           { total_entries := df.cells.length,
             processed_entries := st.processed,
             downloaded_files := st.downloaded,
             skipped_files := st.skipped,
             failed_files := st.failed,
             errors := st.errors }
         ⟨.ok summary, st.disk ++ summaryFileNames ts (!st.errors.isEmpty),
          true⟩)
  | _ =>
    let summary := { initSummary with errors := [.msg (datetimeColsErrMsg df)] }
    ⟨.ok summary, disk, false⟩

/-! ## Collaborator call compatibility (`app_streamlit.py`) -/

/-- The parameters of `EarthCareDownloader.download_from_csv` as declared in
`earthcare_downloader.py` (after the implicit `self`). -/
def download_from_csv_params : List String :=
  ["csv_file_path", "products", "download_directory", "orbit_column",
   "override", "radius_search", "bounding_box"]

/-- The parameters of the overriding
`EarthCareDownloaderGUI_Custom.download_from_csv` in
`earthcare_downloader_gui.py`. -/
def download_from_csv_gui_params : List String :=
  ["csv_file_path", "products", "download_directory", "orbit_column",
   "override", "radius_search", "bounding_box"]

/-- The keyword arguments `app_streamlit.py` supplies when it calls
`downloader.download_from_csv(...)`. -/
def streamlit_call_kwargs : List String :=
  ["csv_file_path", "products", "download_directory", "orbit_column",
   "override", "progress_callback", "stop_callback"]

/-- Python keyword binding: a call binds iff every supplied keyword names a
declared parameter; an unknown keyword raises
`TypeError: got an unexpected keyword argument`. -/
def kwargsBind (params kwargs : List String) : Bool :=
  kwargs.all (fun k => params.contains k)

/-! ## Concrete fixtures used by the theorems -/

/-- Whether `_find_datetime_columns` filled both roles. -/
def hasDatetimeCols (df : DataFrame) : Bool :=
  match find_datetime_columns df with
  | (some _, some _) => true
  | _ => false

def lbrace : String := "\x7b"

def rbrace : String := "\x7d"

/-- The spec's substitution-completeness example template. -/
def exampleTemplate : String :=
  "http://x/?a=" ++ lbrace ++ "p1" ++ rbrace ++ "&b=" ++ lbrace ++ "p2" ++ rbrace

/-- A template in which one parameter name matches two placeholders. -/
def doubleTemplate : String :=
  "http://x/?a=" ++ lbrace ++ "p1" ++ rbrace ++ "&b=" ++ lbrace ++ "p1" ++ rbrace

def entryAA1 : SearchEntry :=
  ⟨"ECA_EXAA_ATL_NOM_1B_20240101T000000Z_01", "https://h1.example/d/ECA_EXAA_f1.zip"⟩

def entryAA2 : SearchEntry :=
  ⟨"ECA_EXAA_ATL_NOM_1B_20240101T000000Z_02", "https://h1.example/d/ECA_EXAA_f2.zip"⟩

def entryAA3 : SearchEntry :=
  ⟨"ECA_EXAA_ATL_NOM_1B_20240101T000000Z_03", "https://h2.example/d/ECA_EXAA_f3.zip"⟩

def entryBA1 : SearchEntry :=
  ⟨"ECA_EXBA_ATL_NOM_1B_20240101T000000Z_04", "https://h2.example/d/ECA_EXBA_f4.zip"⟩

/-- The baseline-selection scenario of the spec: baselines occur with counts
AA: 3, BA: 1. -/
def baselineScenario : List SearchEntry := [entryAA1, entryAA2, entryAA3, entryBA1]

/-- A benign environment stub: template fetch succeeds, searches return no
entries, authentication pages are healthy, transport always succeeds. -/
def stubEnv : Env :=
  { templateFetch := .ok "tpl", rowSearch := fun _ => .ok [],
    authOk := fun _ => true, transport := fun _ _ => true }

/-- Environment whose every search returns the one `entryAA1` result. -/
def envOneFile : Env :=
  { templateFetch := .ok "tpl", rowSearch := fun _ => .ok [entryAA1],
    authOk := fun _ => true, transport := fun _ _ => true }

def dfOneRow : DataFrame := ⟨["date", "time"], [["2024-01-01", "12:00:00.1234"]]⟩

def dfNoRows : DataFrame := ⟨["date", "time"], []⟩

def dfNoDatetime : DataFrame := ⟨["colA", "colB"], [["p", "q"]]⟩

/-! ## Theorems -/

/-- C2: `download_from_csv` (both the base class and the GUI override)
declares no `progress_callback` or `stop_callback` parameter, so the
keyword call made by `app_streamlit.py` cannot bind and raises a
`TypeError`; dropping the two callback keywords makes the same call bind. -/
theorem C2_callback_kwargs_rejected :
    kwargsBind download_from_csv_params streamlit_call_kwargs = false ∧
    kwargsBind download_from_csv_gui_params streamlit_call_kwargs = false ∧
    download_from_csv_params.contains "progress_callback" = false ∧
    download_from_csv_params.contains "stop_callback" = false ∧
    kwargsBind download_from_csv_params
      ["csv_file_path", "products", "download_directory", "orbit_column",
       "override"] = true := by
  decide

/-- A zero-count `re.subn` leaves its input unchanged. -/
theorem substPlaceholder_count_zero (p v : List Char) :
    ∀ fuel s, (substPlaceholder p v fuel s).2 = 0 →
      (substPlaceholder p v fuel s).1 = s := by
  intro fuel
  induction fuel with
  | zero => intro s _; cases s <;> rfl
  | succ n ih =>
    intro s h
    cases s with
    | nil => rfl
    | cons c cs =>
      by_cases hb : c = '{' ∧ p.isPrefixOf cs
      · rcases hk : lazyCloseLen (cs.drop p.length) with _ | k
        · simp only [substPlaceholder, if_pos hb, hk] at h ⊢
          exact congrArg (c :: ·) (ih cs h)
        · simp only [substPlaceholder, if_pos hb, hk] at h
          omega
      · simp only [substPlaceholder, if_neg hb] at h ⊢
        exact congrArg (c :: ·) (ih cs h)

/-- C8 counterexample: with a template in which the parameter name matches
two placeholders, the code substitutes into both (`re.subn` replaces every
non-overlapping match), while the claim's first-placeholder-only reading
yields a different URL. -/
theorem C8_first_only_cex :
    get_api_request doubleTemplate [("p1", "V")] ≠
      get_api_request_first_only doubleTemplate [("p1", "V")] ∧
    (get_api_request doubleTemplate [("p1", "V")]).1 = "http://x/?a=V&b=V" ∧
    (get_api_request_first_only doubleTemplate [("p1", "V")]).1 = "http://x/?a=V" := by
  decide

/-- C8 (amended): each supplied parameter is substituted into every
placeholder whose name matches, trying the bare name and then the
`os:`-namespaced name; a parameter matching no placeholder yields exactly
one logged `ERROR:` diagnostic (chosen by whether the name is namespaced)
and never an exception — every call returns a URL; and the spec's
substitution-completeness example produces `a=V` with the unfilled `b=...`
fragment stripped. -/
theorem C8_get_api_request_substitution :
    ((get_api_request exampleTemplate [("p1", "V")]).1 = "http://x/?a=V" ∧
     pyIn "a=V" (get_api_request exampleTemplate [("p1", "V")]).1 = true ∧
     pyIn "b=" (get_api_request exampleTemplate [("p1", "V")]).1 = false ∧
     (get_api_request exampleTemplate [("p1", "V")]).2 = []) ∧
    ((get_api_request doubleTemplate [("p1", "V")]).1 = "http://x/?a=V&b=V") ∧
    (∀ t p v, (get_api_request t [(p, v)]).2 = [] ∨
       (get_api_request t [(p, v)]).2 =
         ["ERROR: parameter " ++ p ++ " not found in template."] ∨
       (get_api_request t [(p, v)]).2 =
         ["ERROR: parameter os:" ++ p ++ " not found in template."]) ∧
    (∀ t p v, pyIn ":" p = true →
       (substPlaceholder p.data v.data t.data.length t.data).2 = 0 →
       (get_api_request t [(p, v)]).2 =
         ["ERROR: parameter " ++ p ++ " not found in template."]) ∧
    (∀ t p v, pyIn ":" p = false →
       (substPlaceholder p.data v.data t.data.length t.data).2 = 0 →
       (substPlaceholder ("os:" ++ p).data v.data t.data.length t.data).2 = 0 →
       (get_api_request t [(p, v)]).2 =
         ["ERROR: parameter os:" ++ p ++ " not found in template."]) := by
  refine ⟨by decide, by decide, ?_, ?_, ?_⟩
  · intro t p v
    simp only [get_api_request, List.foldl, substParam]
    split_ifs <;> simp
  · intro t p v hin h0
    simp only [get_api_request, List.foldl, substParam]
    rw [h0]
    simp [hin]
  · intro t p v hin h0 h0os
    have hunch : (substPlaceholder p.data v.data t.data.length t.data).1 = t.data :=
      substPlaceholder_count_zero p.data v.data t.data.length t.data h0
    simp only [get_api_request, List.foldl, substParam]
    rw [h0, hunch, h0os]
    simp [hin]

/-- C8 witness: the diagnostic clause applied at a concrete template that
contains no matching placeholder. -/
theorem C8_get_api_request_substitution_witness :
    (get_api_request "http://x/plain" [("q", "V")]).2 =
      ["ERROR: parameter os:q not found in template."] :=
  C8_get_api_request_substitution.2.2.2.2 "http://x/plain" "q" "V"
    (by decide) (by decide) (by decide)

/-- The running-maximum fold used by `selectTopBaseline` returns either its
seed (when no element strictly beats it) or the first element achieving the
maximum. -/
theorem foldTop_spec (cs : List (String × Nat)) (best : String × Nat) :
    (cs.foldl (fun b q => if q.2 > b.2 then q else b) best = best ∧
      ∀ q ∈ cs, q.2 ≤ best.2) ∨
    (∃ pre p suf, cs = pre ++ p :: suf ∧
      cs.foldl (fun b q => if q.2 > b.2 then q else b) best = p ∧
      best.2 < p.2 ∧ (∀ q ∈ pre, q.2 < p.2) ∧ (∀ q ∈ suf, q.2 ≤ p.2)) := by
  induction cs generalizing best with
  | nil => exact Or.inl ⟨rfl, by simp⟩
  | cons c cs ih =>
    by_cases hc : c.2 > best.2
    · rcases ih c with ⟨heq, hall⟩ | ⟨pre, p, suf, hsplit, heq, hlt, hpre, hsuf⟩
      · refine Or.inr ⟨[], c, cs, by simp, ?_, hc, by simp, hall⟩
        simp [List.foldl, hc, heq]
      · refine Or.inr ⟨c :: pre, p, suf, by simp [hsplit], ?_, lt_trans hc hlt, ?_, hsuf⟩
        · simp [List.foldl, hc, heq]
        · intro q hq
          rcases List.mem_cons.mp hq with rfl | hq
          · exact hlt
          · exact hpre q hq
    · rcases ih best with ⟨heq, hall⟩ | ⟨pre, p, suf, hsplit, heq, hlt, hpre, hsuf⟩
      · refine Or.inl ⟨by simp [List.foldl, hc, heq], ?_⟩
        intro q hq
        rcases List.mem_cons.mp hq with rfl | hq
        · omega
        · exact hall q hq
      · refine Or.inr ⟨c :: pre, p, suf, by simp [hsplit], ?_, hlt, ?_, hsuf⟩
        · simp [List.foldl, hc, heq]
        · intro q hq
          rcases List.mem_cons.mp hq with rfl | hq
          · omega
          · exact hpre q hq

/-- `selectTopBaseline` returns the key of the first count-table entry that
achieves the maximal count: everything before it counts strictly less,
everything in the table counts at most as much. -/
theorem selectTop_spec (counts : List (String × Nat)) (b : String)
    (h : selectTopBaseline counts = some b) :
    ∃ pre p suf, counts = pre ++ p :: suf ∧ p.1 = b ∧
      (∀ q ∈ pre, q.2 < p.2) ∧ (∀ q ∈ counts, q.2 ≤ p.2) := by
  match counts with
  | [] => simp [selectTopBaseline] at h
  | c :: cs =>
    simp only [selectTopBaseline, Option.some.injEq] at h
    rcases foldTop_spec cs c with ⟨heq, hall⟩ | ⟨pre, p, suf, hsplit, heq, hlt, hpre, hsuf⟩
    · refine ⟨[], c, cs, by simp, ?_, by simp, ?_⟩
      · rw [← h, heq]
      · intro q hq
        rcases List.mem_cons.mp hq with rfl | hq
        · exact le_refl _
        · exact hall q hq
    · refine ⟨c :: pre, p, suf, by simp [hsplit], ?_, ?_, ?_⟩
      · rw [← h, heq]
      · intro q hq
        rcases List.mem_cons.mp hq with rfl | hq
        · exact hlt
        · exact hpre q hq
      · intro q hq
        rcases List.mem_cons.mp hq with rfl | hq
        · exact le_of_lt hlt
        · rw [hsplit] at hq
          rcases List.mem_append.mp hq with hq | hq
          · exact le_of_lt (hpre q hq)
          · rcases List.mem_cons.mp hq with rfl | hq
            · exact le_refl _
            · exact hsuf q hq

/-- When `filter_by_baseline` reports a chosen baseline, the output is
exactly the entries bearing that tag, and it is non-empty. -/
theorem filter_by_baseline_chosen (requested : Option String)
    (entries out : List SearchEntry) (b : String)
    (h : filter_by_baseline requested entries = (out, some b)) :
    out = baselineFiltered entries b ∧ out ≠ [] := by
  cases hemp : entries.isEmpty with
  | true => simp [filter_by_baseline, hemp] at h
  | false =>
    cases requested with
    | some r =>
      simp only [filter_by_baseline, hemp, Bool.false_eq_true, if_false] at h
      cases hfil : (baselineFiltered entries r).isEmpty with
      | true => simp [hfil] at h
      | false =>
        simp only [hfil, Bool.false_eq_true, if_false, Prod.mk.injEq,
          Option.some.injEq] at h
        rcases h with ⟨h1, h2⟩
        subst h2
        subst h1
        exact ⟨rfl, by simpa using hfil⟩
    | none =>
      simp only [filter_by_baseline, hemp, Bool.false_eq_true, if_false] at h
      cases hsel : selectTopBaseline (baselineTable entries) with
      | none => rw [hsel] at h; simp at h
      | some bsel =>
        rw [hsel] at h
        cases hfil : (baselineFiltered entries bsel).isEmpty with
        | true => simp [hfil] at h
        | false =>
          simp only [hfil, Bool.false_eq_true, if_false, Prod.mk.injEq,
            Option.some.injEq] at h
          rcases h with ⟨h1, h2⟩
          subst h2
          subst h1
          exact ⟨rfl, by simpa using hfil⟩

/-- When no baseline was requested and one was chosen, the chosen baseline
is the first-seen key of maximal occurrence count in the tag table. -/
theorem filter_by_baseline_auto_max (entries out : List SearchEntry) (b : String)
    (h : filter_by_baseline none entries = (out, some b)) :
    ∃ pre p suf, baselineTable entries = pre ++ p :: suf ∧ p.1 = b ∧
      (∀ q ∈ pre, q.2 < p.2) ∧ (∀ q ∈ baselineTable entries, q.2 ≤ p.2) := by
  have hsel : selectTopBaseline (baselineTable entries) = some b := by
    cases hemp : entries.isEmpty with
    | true => simp [filter_by_baseline, hemp] at h
    | false =>
      simp only [filter_by_baseline, hemp, Bool.false_eq_true, if_false] at h
      cases hsel : selectTopBaseline (baselineTable entries) with
      | none => rw [hsel] at h; simp at h
      | some bsel =>
        rw [hsel] at h
        cases hfil : (baselineFiltered entries bsel).isEmpty with
        | true => simp [hfil] at h
        | false =>
          simp only [hfil, Bool.false_eq_true, if_false, Prod.mk.injEq,
            Option.some.injEq] at h
          rw [h.2]
  exact selectTop_spec _ b hsel

/-- C3: whenever `filter_by_baseline` reports a chosen baseline, the output
is exactly the entries bearing that tag; with no requested baseline the
chosen tag is the first-seen maximal-count baseline among the extractable
`ECA_EX<XX>_` tags; and on the spec's scenario (counts AA: 3, BA: 1): no
request selects `AA` with exactly the 3 `AA` entries, requesting `BA` yields
exactly the 1 `BA` entry, and requesting the absent `ZZ` yields an empty
set with no chosen baseline — returned normally, not as an error. -/
theorem C3_filter_by_baseline :
    (∀ requested entries out b,
       filter_by_baseline requested entries = (out, some b) →
       out = baselineFiltered entries b ∧ out ≠ []) ∧
    (∀ entries out b, filter_by_baseline none entries = (out, some b) →
       ∃ pre p suf, baselineTable entries = pre ++ p :: suf ∧ p.1 = b ∧
         (∀ q ∈ pre, q.2 < p.2) ∧ (∀ q ∈ baselineTable entries, q.2 ≤ p.2)) ∧
    filter_by_baseline none baselineScenario =
      ([entryAA1, entryAA2, entryAA3], some "AA") ∧
    filter_by_baseline (some "BA") baselineScenario = ([entryBA1], some "BA") ∧
    filter_by_baseline (some "ZZ") baselineScenario = ([], none) :=
  ⟨filter_by_baseline_chosen, filter_by_baseline_auto_max,
   by decide, by decide, by decide⟩

/-- C3 witness: the chosen-baseline clause applied to the concrete `BA`
request. -/
theorem C3_filter_by_baseline_witness :
    [entryBA1] = baselineFiltered baselineScenario "BA" ∧
      ([entryBA1] : List SearchEntry) ≠ [] :=
  C3_filter_by_baseline.1 (some "BA") baselineScenario [entryBA1] "BA" (by decide)

/-- `find?` returns the element when it satisfies the predicate and the
predicate picks out at most one element of the list. -/
theorem find?_eq_some_of_mem_unique {α : Type} (p : α → Bool) :
    ∀ (l : List α) (a : α), a ∈ l → p a = true →
      (∀ x ∈ l, ∀ y ∈ l, p x = true → p y = true → x = y) →
      l.find? p = some a := by
  intro l
  induction l with
  | nil => intro a ha _ _; cases ha
  | cons b t ih =>
    intro a ha hpa huniq
    cases hpb : p b with
    | true =>
      have hab : a = b := huniq a ha b (List.mem_cons_self b t) hpa hpb
      rw [List.find?_cons_of_pos _ hpb, hab]
    | false =>
      have hat : a ∈ t := by
        rcases List.mem_cons.mp ha with rfl | h
        · rw [hpa] at hpb; cases hpb
        · exact h
      rw [List.find?_cons_of_neg _ (by simp [hpb])]
      exact ih a hat hpa
        (fun x hx y hy => huniq x (List.mem_cons_of_mem _ hx) y
          (List.mem_cons_of_mem _ hy))

/-- The alias sets of the catalog are disjoint across entries: a normalised
input belonging to two entries' alias sets forces the entries equal. -/
theorem expectedInputs_unique :
    ∀ a ∈ file_types, ∀ b ∈ file_types, ∀ x ∈ expectedInputsOf a,
      x ∈ expectedInputsOf b → a = b := by decide

/-- Each canonical code normalises to its own long-form alias. -/
theorem normalize_canonical :
    ∀ ft ∈ file_types, normalizeProductInput ft ∈ expectedInputsOf ft := by decide

/-- Every documented alias is a fixed point of the input normalisation. -/
theorem aliases_normalized :
    ∀ ft ∈ file_types, ∀ a ∈ expectedInputsOf ft,
      normalizeProductInput a = a := by decide

/-- An infix of `t` is an infix of `s ++ t ++ u`. -/
theorem isInfix_append_three {l t : List Char} (s u : List Char)
    (h : l <:+: t) : l <:+: s ++ t ++ u := by
  rcases h with ⟨a, b, rfl⟩
  exact ⟨s ++ a, b ++ u, by simp⟩

/-- An infix of `t` is an infix of `s ++ t`. -/
theorem isInfix_append_left {l t : List Char} (s : List Char)
    (h : l <:+: t) : l <:+: s ++ t := by
  rcases h with ⟨a, b, rfl⟩
  exact ⟨s ++ a, b, by simp⟩

/-- Every canonical long form occurs in the long-form table of the error
message. -/
theorem fileTypes_in_tableMsg :
    ∀ ft ∈ file_types, ft.data <:+: (tableMsg file_types).data := by decide

/-- Every upper-cased short form occurs in the short-form table of the
error message. -/
theorem shortNames_in_tableMsg :
    ∀ ft ∈ file_types,
      (pyUpper (shortNameOf ft)).data <:+: (tableMsg productShortNames).data := by
  decide

/-- The unknown-product error message enumerates every long form and every
short form. -/
theorem productErrorMsg_contains (s : String) :
    ∀ ft ∈ file_types, ft.data <:+: (productErrorMsg s).data ∧
      (pyUpper (shortNameOf ft)).data <:+: (productErrorMsg s).data := by
  intro ft hft
  constructor
  · rcases fileTypes_in_tableMsg ft hft with ⟨a, b, hab⟩
    refine ⟨("The user input \"" ++ s ++
        "\" is either not a valid product name or not supported by this function.\n").data ++ a,
      b ++ ("\n\nor use the respective short forms (additional non letter characters like - or _ are also allowed, e.g. A-NOM):\n").data ++
        (tableMsg productShortNames).data, ?_⟩
    simp only [productErrorMsg, String.data_append, List.append_assoc, ← hab]
  · rcases shortNames_in_tableMsg ft hft with ⟨a, b, hab⟩
    refine ⟨("The user input \"" ++ s ++
        "\" is either not a valid product name or not supported by this function.\n").data ++
        (tableMsg file_types).data ++
        ("\n\nor use the respective short forms (additional non letter characters like - or _ are also allowed, e.g. A-NOM):\n").data ++ a,
      b, ?_⟩
    simp only [productErrorMsg, String.data_append, List.append_assoc, ← hab]

/-- C4: product-name resolution is total over the documented alias set
(viewed through the case/space/hyphen/underscore-stripping normalisation),
idempotent on its own results, matches exactly one canonical code for any
valid normalised input, fails exactly on inputs matching no alias, and its
error message enumerates every long form and every short form. -/
theorem C4_string_to_product_name :
    (∀ s ft, ft ∈ file_types → normalizeProductInput s ∈ expectedInputsOf ft →
       string_to_product_name s = .ok ft) ∧
    (∀ ft ∈ file_types, ∀ a ∈ expectedInputsOf ft,
       string_to_product_name a = .ok ft) ∧
    (∀ s ft, string_to_product_name s = .ok ft →
       string_to_product_name ft = .ok ft) ∧
    (∀ s ft₁ ft₂, ft₁ ∈ file_types → ft₂ ∈ file_types →
       normalizeProductInput s ∈ expectedInputsOf ft₁ →
       normalizeProductInput s ∈ expectedInputsOf ft₂ → ft₁ = ft₂) ∧
    (∀ s, (∀ ft ∈ file_types, normalizeProductInput s ∉ expectedInputsOf ft) →
       string_to_product_name s = .error (productErrorMsg s)) ∧
    (∀ s msg, string_to_product_name s = .error msg →
       ∀ ft ∈ file_types, ft.data <:+: msg.data ∧
         (pyUpper (shortNameOf ft)).data <:+: msg.data) := by
  have resolve_ok : ∀ s ft, ft ∈ file_types →
      normalizeProductInput s ∈ expectedInputsOf ft →
      string_to_product_name s = .ok ft := by
    intro s ft hft hmem
    unfold string_to_product_name
    rw [find?_eq_some_of_mem_unique _ file_types ft hft (by simpa using hmem)
      (fun x hx y hy hpx hpy =>
        expectedInputs_unique x hx y hy (normalizeProductInput s)
          (by simpa using hpx) (by simpa using hpy))]
  refine ⟨resolve_ok, ?_, ?_, ?_, ?_, ?_⟩
  · intro ft hft a ha
    have hn := aliases_normalized ft hft a ha
    exact resolve_ok a ft hft (by rw [hn]; exact ha)
  · intro s ft h
    unfold string_to_product_name at h
    cases hfind : file_types.find?
        (fun x => (expectedInputsOf x).contains (normalizeProductInput s)) with
    | none => rw [hfind] at h; cases h
    | some ft2 =>
      rw [hfind] at h
      obtain rfl : ft2 = ft := Except.ok.inj h
      have hmem := List.mem_of_find?_eq_some hfind
      exact resolve_ok ft2 ft2 hmem (normalize_canonical ft2 hmem)
  · intro s ft₁ ft₂ h1 h2 hm1 hm2
    exact expectedInputs_unique ft₁ h1 ft₂ h2 (normalizeProductInput s) hm1 hm2
  · intro s hall
    unfold string_to_product_name
    rw [List.find?_eq_none.mpr (fun x hx => by simpa using hall x hx)]
  · intro s msg h
    unfold string_to_product_name at h
    cases hfind : file_types.find?
        (fun x => (expectedInputsOf x).contains (normalizeProductInput s)) with
    | some ft2 => rw [hfind] at h; cases h
    | none =>
      rw [hfind] at h
      obtain rfl : productErrorMsg s = msg := Except.error.inj h
      exact productErrorMsg_contains s

/-- C4 witness: the short alias `A-NOM` (case/hyphen-insensitive) resolves
to `ATL_NOM_1B`, and resolving the result again returns it unchanged. -/
theorem C4_string_to_product_name_witness :
    string_to_product_name "A-NOM" = .ok "ATL_NOM_1B" ∧
      string_to_product_name "ATL_NOM_1B" = .ok "ATL_NOM_1B" :=
  ⟨C4_string_to_product_name.1 "A-NOM" "ATL_NOM_1B" (by decide) (by decide),
   C4_string_to_product_name.1 "ATL_NOM_1B" "ATL_NOM_1B" (by decide) (by decide)⟩

/-- The three-attempt loop, written out. -/
theorem attemptLoop3 (t : Nat → Bool) :
    attemptLoop t 0 3 =
      if t 0 then (some 0, 0)
      else if t 1 then (some 1, 1)
      else if t 2 then (some 2, 2)
      else (none, 3) := by
  cases h0 : t 0 <;> cases h1 : t 1 <;> cases h2 : t 2 <;>
    simp [attemptLoop, h0, h1, h2]

/-- Under healthy authentication pages, `download_products` always returns
its lists normally, whatever the transport does. -/
theorem dpGroups_ok (authOk : String → Bool) (transport : String → Nat → Bool)
    (ov : Bool) (entries : List SearchEntry) :
    ∀ (servers : List String) (st : DPState),
      (∀ srv ∈ servers, authOk srv = true) →
      ∃ lists, (dpGroups authOk transport ov entries servers st).res = .ok lists := by
  intro servers
  induction servers with
  | nil => intro st _; exact ⟨_, rfl⟩
  | cons srv rest ih =>
    intro st hauth
    rw [dpGroups, if_pos (hauth srv (List.mem_cons_self srv rest))]
    exact ih _ (fun x hx => hauth x (List.mem_cons_of_mem _ hx))

/-- C5: a file that is not already present is tried up to `max_retries = 3`
times with a fixed 2-second backoff after each failure: a success at or
before the third attempt records the file as downloaded (and writes it),
never as failed; three failures record it as failed, never as downloaded,
after exactly 3 backoff waits; and per-file transport outcomes never make
`download_products` raise — with healthy authentication it always returns
its result lists. -/
theorem C5_download_retry :
    (∀ transport disk e, fileExistsCheck disk (fileNameOf e.enclosure) = false →
       (∃ k, k < max_retries ∧ transport (fileNameOf e.enclosure) k = true) →
       (processEntry transport false disk e).downloaded = [fileNameOf e.enclosure] ∧
       (processEntry transport false disk e).failed = [] ∧
       (processEntry transport false disk e).disk = disk ++ [fileNameOf e.enclosure]) ∧
    (∀ transport disk e, fileExistsCheck disk (fileNameOf e.enclosure) = false →
       (∀ k, k < max_retries → transport (fileNameOf e.enclosure) k = false) →
       (processEntry transport false disk e).failed = [fileNameOf e.enclosure] ∧
       (processEntry transport false disk e).downloaded = [] ∧
       (processEntry transport false disk e).sleeps = max_retries) ∧
    (∀ authOk transport entries disk ov,
       (∀ srv ∈ serversOf entries, authOk srv = true) →
       ∃ lists, (download_products authOk transport entries disk ov).res = .ok lists) := by
  refine ⟨?_, ?_, ?_⟩
  · intro transport disk e hex hsucc
    cases h0 : transport (fileNameOf e.enclosure) 0 <;>
      cases h1 : transport (fileNameOf e.enclosure) 1 <;>
      cases h2 : transport (fileNameOf e.enclosure) 2 <;>
      simp [processEntry, hex, attemptPhase, max_retries, attemptLoop3, h0, h1, h2]
    obtain ⟨k, hk, ht⟩ := hsucc
    match k, hk with
    | 0, _ => rw [h0] at ht; cases ht
    | 1, _ => rw [h1] at ht; cases ht
    | 2, _ => rw [h2] at ht; cases ht
  · intro transport disk e hex hfail
    have h0 := hfail 0 (by decide)
    have h1 := hfail 1 (by decide)
    have h2 := hfail 2 (by decide)
    simp [processEntry, hex, attemptPhase, attemptLoop3, h0, h1, h2, max_retries]
  · intro authOk transport entries disk ov hauth
    exact dpGroups_ok authOk transport ov entries (serversOf entries) _ hauth

/-- C5 witness: a transport failing twice then succeeding downloads the
file; one failing always records it as failed after three 2-second waits. -/
theorem C5_download_retry_witness :
    (processEntry (fun _ k => k ≥ 2) false [] entryAA1).downloaded =
        ["ECA_EXAA_f1.zip"] ∧
      (processEntry (fun _ k => k ≥ 2) false [] entryAA1).failed = [] ∧
      (processEntry (fun _ k => k ≥ 2) false [] entryAA1).disk =
        [] ++ ["ECA_EXAA_f1.zip"] ∧
      (processEntry (fun _ _ => false) false [] entryAA1).failed =
        ["ECA_EXAA_f1.zip"] :=
  have h1 := C5_download_retry.1 (fun _ k => k ≥ 2) [] entryAA1 (by decide)
    ⟨2, by decide, by decide⟩
  have h2 := C5_download_retry.2.1 (fun _ _ => false) [] entryAA1 (by decide)
    (fun k _ => rfl)
  ⟨h1.1, h1.2.1, h1.2.2, h2.1⟩

/-- C6: the file is treated as already present exactly when the exact name,
the name with a trailing `.zip` stripped, or the name with `.zip` appended
is on disk, or some file on disk starts with the name's stem; a present
file without override is recorded as skipped with nothing attempted (the
outcome does not even depend on the transport); a present file with
override first deletes the three name variants and then runs the ordinary
attempt phase on the cleaned directory. -/
theorem C6_existence_skip_override :
    (∀ disk file_name, fileExistsCheck disk file_name = true ↔
       (file_name ∈ disk ∨ noZipName file_name ∈ disk ∨
        file_name ++ ".zip" ∈ disk ∨
        ∃ g ∈ disk, (stemOf file_name).data.isPrefixOf g.data = true)) ∧
    (∀ t t2 disk e, fileExistsCheck disk (fileNameOf e.enclosure) = true →
       processEntry t false disk e =
         { downloaded := [], skipped := [fileNameOf e.enclosure], failed := [],
           disk := disk, sleeps := 0 } ∧
       processEntry t false disk e = processEntry t2 false disk e) ∧
    (∀ t disk e, fileExistsCheck disk (fileNameOf e.enclosure) = true →
       processEntry t true disk e =
         attemptPhase t (removeVariants disk (fileNameOf e.enclosure))
           (fileNameOf e.enclosure)) ∧
    (∀ disk file_name g, g ∈ removeVariants disk file_name ↔
       (g ∈ disk ∧ g ≠ file_name ∧ g ≠ noZipName file_name ∧
        g ≠ file_name ++ ".zip")) := by
  refine ⟨?_, ?_, ?_, ?_⟩
  · intro disk file_name
    simp only [fileExistsCheck, pyStartsWith, List.any_eq_true, Bool.or_eq_true,
      List.contains, List.elem_iff, decide_eq_true_eq]
    tauto
  · intro t t2 disk e hex
    exact ⟨by simp [processEntry, hex], by simp [processEntry, hex]⟩
  · intro t disk e hex
    simp [processEntry, hex]
  · intro disk file_name g
    simp only [removeVariants, List.mem_filter, Bool.not_eq_eq_eq_not,
      Bool.not_true, Bool.or_eq_false_iff, beq_eq_false_iff_ne, ne_eq]
    tauto

/-- C6 witness: the existence check applied at a concrete directory state,
and the skip branch at the same state. -/
theorem C6_existence_skip_override_witness :
    (fileExistsCheck ["ECA_EXAA_f1"] "ECA_EXAA_f1.zip" = true ↔
       ("ECA_EXAA_f1.zip" ∈ ["ECA_EXAA_f1"] ∨
        noZipName "ECA_EXAA_f1.zip" ∈ ["ECA_EXAA_f1"] ∨
        "ECA_EXAA_f1.zip" ++ ".zip" ∈ ["ECA_EXAA_f1"] ∨
        ∃ g ∈ ["ECA_EXAA_f1"],
          (stemOf "ECA_EXAA_f1.zip").data.isPrefixOf g.data = true)) ∧
      processEntry (fun _ _ => false) false ["ECA_EXAA_f1"] entryAA1 =
        { downloaded := [], skipped := ["ECA_EXAA_f1.zip"], failed := [],
          disk := ["ECA_EXAA_f1"], sleeps := 0 } :=
  ⟨C6_existence_skip_override.1 ["ECA_EXAA_f1"] "ECA_EXAA_f1.zip",
   (C6_existence_skip_override.2.1 (fun _ _ => false) (fun _ _ => true)
     ["ECA_EXAA_f1"] entryAA1 (by decide)).1⟩

/-- C7: a row whose processing raises appends exactly one error record —
carrying the 1-based row index, the row's timestamp string, the error text
and the orbit value — and changes nothing else, and the loop simply
continues with the next row; a row with an empty baseline-filtered result
changes nothing (no processed-count increment); a row whose download
session returns normally increments the processed count by exactly one
whatever its per-file outcome lists contain; a row whose download session
raises turns into one error record as well. -/
theorem C7_row_isolation :
    (∀ env df dc tc oc rb ov st i row dt e orb,
       rowClass env df dc tc oc rb i row = .err dt e orb →
       rowStep env df dc tc oc rb ov st i row =
         { st with errors := st.errors ++ [.record (i + 1) dt e orb] }) ∧
    (∀ env df dc tc oc rb ov i row rest st,
       rowLoop env df dc tc oc rb ov i (row :: rest) st =
         rowLoop env df dc tc oc rb ov (i + 1) rest
           (rowStep env df dc tc oc rb ov st i row)) ∧
    (∀ env df dc tc oc rb ov st i row,
       rowClass env df dc tc oc rb i row = .empty →
       rowStep env df dc tc oc rb ov st i row = st) ∧
    (∀ env df dc tc oc rb ov st i row fil dt orb d s f,
       rowClass env df dc tc oc rb i row = .group fil dt orb →
       (download_products env.authOk env.transport fil st.disk ov).res =
         .ok (d, s, f) →
       rowStep env df dc tc oc rb ov st i row =
         { st with
           disk := (download_products env.authOk env.transport fil st.disk ov).disk,
           downloaded := st.downloaded ++ d, skipped := st.skipped ++ s,
           failed := st.failed ++ f, processed := st.processed + 1 }) ∧
    (∀ env df dc tc oc rb ov st i row fil dt orb e,
       rowClass env df dc tc oc rb i row = .group fil dt orb →
       (download_products env.authOk env.transport fil st.disk ov).res = .error e →
       rowStep env df dc tc oc rb ov st i row =
         { st with
           disk := (download_products env.authOk env.transport fil st.disk ov).disk,
           errors := st.errors ++ [.record (i + 1) dt e orb] }) := by
  refine ⟨?_, ?_, ?_, ?_, ?_⟩
  · intro env df dc tc oc rb ov st i row dt e orb h
    simp [rowStep, h]
  · intro env df dc tc oc rb ov i row rest st
    rfl
  · intro env df dc tc oc rb ov st i row h
    simp [rowStep, h]
  · intro env df dc tc oc rb ov st i row fil dt orb d s f hclass hdp
    simp only [rowStep, hclass]
    rw [hdp]
  · intro env df dc tc oc rb ov st i row fil dt orb e hclass hdp
    simp only [rowStep, hclass]
    rw [hdp]

/-- C7 witness: a row with an unparseable timestamp produces exactly its
error record (the theorem's first clause at concrete inputs). -/
theorem C7_row_isolation_witness :
    rowStep stubEnv ⟨["date", "time"], [["baddate", "12:00:00"]]⟩ "date" "time"
        none none false ⟨[], 0, [], [], [], []⟩ 0 ["baddate", "12:00:00"] =
      { disk := [], processed := 0, downloaded := [], skipped := [], failed := [],
        errors := [.record 1 "baddate 12:00:00"
          "could not parse datetime string: baddate 12:00:00" none] } :=
  C7_row_isolation.1 stubEnv ⟨["date", "time"], [["baddate", "12:00:00"]]⟩
    "date" "time" none none false ⟨[], 0, [], [], [], []⟩ 0
    ["baddate", "12:00:00"] "baddate 12:00:00"
    "could not parse datetime string: baddate 12:00:00" none (by rfl)

/-- A date-shaped character list consists of digits and hyphens. -/
theorem isDateShape_chars {l : List Char} (h : isDateShape l = true) :
    ∀ c ∈ l, c.isDigit = true ∨ c = '-' := by
  unfold isDateShape at h
  split at h
  · rename_i y1 y2 y3 y4 s1 m1 m2 s2 d1 d2
    simp only [Bool.and_eq_true, beq_iff_eq] at h
    obtain ⟨⟨⟨⟨⟨⟨⟨⟨⟨h1, h2⟩, h3⟩, h4⟩, h5⟩, h6⟩, h7⟩, h8⟩, h9⟩, h10⟩ := h
    intro c hc
    simp only [List.mem_cons, List.not_mem_nil, or_false] at hc
    rcases hc with rfl | rfl | rfl | rfl | rfl | rfl | rfl | rfl | rfl | rfl <;>
      simp_all
  · cases h

/-- A date-shaped character list has exactly 10 characters. -/
theorem isDateShape_length {l : List Char} (h : isDateShape l = true) :
    l.length = 10 := by
  unfold isDateShape at h
  split at h
  · rename_i y1 y2 y3 y4 s1 m1 m2 s2 d1 d2; rfl
  · cases h

/-- A whole-second time-shaped character list consists of digits and
colons. -/
theorem isHmsShape_chars {l : List Char} (h : isHmsShape l = true) :
    ∀ c ∈ l, c.isDigit = true ∨ c = ':' := by
  unfold isHmsShape at h
  split at h
  · rename_i h1 h2 s1 m1 m2 s2 c1 c2
    simp only [Bool.and_eq_true, beq_iff_eq] at h
    obtain ⟨⟨⟨⟨⟨⟨⟨ha, hb⟩, hc2⟩, hd⟩, he⟩, hf⟩, hg⟩, hh⟩ := h
    intro c hc
    simp only [List.mem_cons, List.not_mem_nil, or_false] at hc
    rcases hc with rfl | rfl | rfl | rfl | rfl | rfl | rfl | rfl <;> simp_all
  · cases h

/-- A whole-second time-shaped character list has exactly 8 characters. -/
theorem isHmsShape_length {l : List Char} (h : isHmsShape l = true) :
    l.length = 8 := by
  unfold isHmsShape at h
  split at h
  · rename_i h1 h2 s1 m1 m2 s2 c1 c2; rfl
  · cases h

/-- A fraction-shaped character list consists of an optional leading dot
and digits. -/
theorem isFracShape_chars {l : List Char} (h : isFracShape l = true) :
    ∀ c ∈ l, c = '.' ∨ c.isDigit = true := by
  unfold isFracShape at h
  split at h
  · intro c hc; cases hc
  · rename_i f
    simp only [Bool.and_eq_true, List.all_eq_true] at h
    intro c hc
    rcases List.mem_cons.mp hc with rfl | hc
    · exact Or.inl rfl
    · exact Or.inr (by simpa using h.2 c hc)
  · cases h

/-- A non-empty fraction-shaped list is a dot followed by one or more
digits. -/
theorem isFracShape_cons {c : Char} {f : List Char}
    (h : isFracShape (c :: f) = true) :
    c = '.' ∧ f ≠ [] ∧ ∀ x ∈ f, x.isDigit = true := by
  unfold isFracShape at h
  split at h
  · rename_i heq; cases heq
  · rename_i f2 heq
    obtain ⟨rfl, rfl⟩ : c = '.' ∧ f = f2 := by
      injection heq with ha hb; exact ⟨ha, hb⟩
    simp only [Bool.and_eq_true, List.all_eq_true, Bool.not_eq_true',
      List.isEmpty_eq_false] at h
    exact ⟨rfl, by simpa using h.1, fun x hx => by simpa using h.2 x hx⟩
  · cases h

/-- Splitting at the separator between two separator-free halves. -/
theorem splitChar_append_sep (sep : Char) (a b : List Char)
    (ha : ∀ c ∈ a, c ≠ sep) :
    splitChar sep (a ++ sep :: b) = a :: splitChar sep b := by
  induction a with
  | nil => simp [splitChar]
  | cons c a ih =>
    have hc : c ≠ sep := ha c (List.mem_cons_self c a)
    have ih2 := ih (fun x hx => ha x (List.mem_cons_of_mem _ hx))
    have ih3 : splitChar sep (a.append (sep :: b)) = a :: splitChar sep b := ih2
    rw [List.cons_append]
    simp only [splitChar, if_neg hc, ih2, ih3]

/-- A separator-free list splits into itself. -/
theorem splitChar_no_sep (sep : Char) (b : List Char)
    (hb : ∀ c ∈ b, c ≠ sep) : splitChar sep b = [b] := by
  induction b with
  | nil => rfl
  | cons c b ih =>
    have hc : c ≠ sep := hb c (List.mem_cons_self c b)
    have ih2 := ih (fun x hx => hb x (List.mem_cons_of_mem _ hx))
    simp only [splitChar, if_neg hc, ih2]

/-- The one-character-pattern substring test is membership. -/
theorem infixOf_single (c : Char) : ∀ l, infixOf [c] l = l.contains c := by
  intro l
  induction l with
  | nil => rfl
  | cons x xs ih =>
    simp only [infixOf, List.isPrefixOf, List.contains, List.elem_cons, ih]
    cases hxc : c == x <;> simp [List.isPrefixOf, List.contains, hxc]

/-- Parsing a `date ++ " " ++ time` string whose halves have the expected
shapes. -/
theorem parseNaive_of_shapes (date time : String)
    (hd : isDateShape date.data = true)
    (hhms : isHmsShape (takeStr time 8).data = true)
    (hfrac : isFracShape (dropStr time 8).data = true) :
    parseNaiveTimestamp (date ++ " " ++ time) =
      some (date, takeStr time 8, dropStr time 8) := by
  have hd_nospace : ∀ c ∈ date.data, c ≠ ' ' := by
    intro c hc heq
    rcases isDateShape_chars hd c hc with h | h
    · rw [heq] at h; exact absurd h (by decide)
    · rw [heq] at h; cases h
  have ht_nospace : ∀ c ∈ time.data, c ≠ ' ' := by
    intro c hc heq
    have hsplitmem : c ∈ time.data.take 8 ∨ c ∈ time.data.drop 8 := by
      rw [← List.mem_append, List.take_append_drop]; exact hc
    rcases hsplitmem with hm | hm
    · rcases isHmsShape_chars hhms c hm with h | h
      · rw [heq] at h; exact absurd h (by decide)
      · rw [heq] at h; cases h
    · rcases isFracShape_chars hfrac c hm with h | h
      · rw [heq] at h; cases h
      · rw [heq] at h; exact absurd h (by decide)
  have hdata : (date ++ " " ++ time).data = date.data ++ ' ' :: time.data := by
    simp [String.data_append]
  have hsplit : pySplit (date ++ " " ++ time) ' ' = [date, time] := by
    unfold pySplit
    rw [hdata, splitChar_append_sep ' ' date.data time.data hd_nospace,
      splitChar_no_sep ' ' time.data ht_nospace]
    rfl
  unfold parseNaiveTimestamp
  rw [hsplit]
  simp only [hd, if_true, hhms, hfrac, Bool.and_self, if_pos]

/-- C10: a timestamp of the parseable naive `"YYYY-MM-DD HH:MM:SS[.fff]"`
family is formatted as `date ++ "T" ++ whole-second time ++ "Z"` — 20
characters, no dot, carrying the input's date and whole-second time and
discarding any fractional digits (the `%X` behaviour) — and therefore the
orchestrator's 3-digit fractional truncation never changes the formatted
start/end time sent in the query. -/
theorem C10_format_datetime (date time : String)
    (hd : isDateShape date.data = true)
    (hhms : isHmsShape (takeStr time 8).data = true)
    (hfrac : isFracShape (dropStr time 8).data = true) :
    format_datetime_string (date ++ " " ++ time) =
      .ok (date ++ "T" ++ takeStr time 8 ++ "Z") ∧
    (∀ c ∈ (date ++ "T" ++ takeStr time 8 ++ "Z").data, c ≠ '.') ∧
    (date ++ "T" ++ takeStr time 8 ++ "Z").data.length = 20 ∧
    format_datetime_string (date ++ " " ++ truncateTimeStr time) =
      format_datetime_string (date ++ " " ++ time) := by
  have hfmt : format_datetime_string (date ++ " " ++ time) =
      .ok (date ++ "T" ++ takeStr time 8 ++ "Z") := by
    unfold format_datetime_string
    rw [parseNaive_of_shapes date time hd hhms hfrac]
  have htime8 : (takeStr time 8).data.length = 8 := isHmsShape_length hhms
  refine ⟨hfmt, ?_, ?_, ?_⟩
  · intro c hc heq
    subst heq
    have hsplit : ('.' : Char) ∈ date.data ∨ ('.' : Char) ∈ "T".data ∨
        ('.' : Char) ∈ (takeStr time 8).data ∨ ('.' : Char) ∈ "Z".data := by
      simpa [String.data_append, List.mem_append] using hc
    rcases hsplit with hm | hm | hm | hm
    · rcases isDateShape_chars hd _ hm with h | h
      · exact absurd h (by decide)
      · cases h
    · simp at hm
    · rcases isHmsShape_chars hhms _ hm with h | h
      · exact absurd h (by decide)
      · cases h
    · simp at hm
  · have hdate10 : date.data.length = 10 := isDateShape_length hd
    simp [String.data_append, hdate10, htime8]
  · -- the truncation: nothing changes when there is no fractional part or
    -- at most 3 fractional digits; otherwise both sides parse to the same
    -- date and whole-second time.
    rcases hdrop : (dropStr time 8).data with _ | ⟨c, f⟩
    · -- no dot in the time at all, truncation is the identity
      have hnodot : pyIn "." time = false := by
        unfold pyIn
        rw [show ("." : String).data = ['.'] from rfl, infixOf_single]
        by_contra hcon
        have hmem : ('.' : Char) ∈ time.data := by
          have := List.elem_iff.mp (by
            cases hx : time.data.contains '.'
            · exact absurd hx (by simpa using hcon)
            · exact hx)
          exact this
        have hsplitmem : ('.' : Char) ∈ time.data.take 8 ∨
            ('.' : Char) ∈ time.data.drop 8 := by
          rw [← List.mem_append, List.take_append_drop]; exact hmem
        rcases hsplitmem with hm | hm
        · rcases isHmsShape_chars hhms _ hm with h | h
          · exact absurd h (by decide)
          · cases h
        · rw [show time.data.drop 8 = (dropStr time 8).data from rfl, hdrop] at hm
          cases hm
      rw [show truncateTimeStr time = time from by
        unfold truncateTimeStr; rw [hnodot]; rfl]
    · -- a dot and fractional digits follow the whole-second time
      obtain ⟨rfl, hfne, hfdig⟩ := isFracShape_cons (hdrop ▸ hfrac)
      have hms_nodot : ∀ x ∈ (takeStr time 8).data, x ≠ '.' := by
        intro x hx heq
        rcases isHmsShape_chars hhms x hx with h | h
        · rw [heq] at h; exact absurd h (by decide)
        · rw [heq] at h; cases h
      have hf_nodot : ∀ x ∈ f, x ≠ '.' := by
        intro x hx heq
        have := hfdig x hx
        rw [heq] at this; exact absurd this (by decide)
      have htdata : time.data = (takeStr time 8).data ++ '.' :: f := by
        conv_lhs => rw [← List.take_append_drop 8 time.data]
        rw [show time.data.take 8 = (takeStr time 8).data from rfl,
          show time.data.drop 8 = (dropStr time 8).data from rfl, hdrop]
      have hdotmem : pyIn "." time = true := by
        unfold pyIn
        rw [show ("." : String).data = ['.'] from rfl, infixOf_single]
        have : ('.' : Char) ∈ time.data := by
          rw [htdata]; exact List.mem_append_right _ (List.mem_cons_self _ _)
        exact List.elem_iff.mpr this
      have hparts : pySplit time '.' = [takeStr time 8, ⟨f⟩] := by
        unfold pySplit
        rw [htdata, splitChar_append_sep '.' _ f hms_nodot,
          splitChar_no_sep '.' f hf_nodot]
        rfl
      by_cases hlen : (⟨f⟩ : String).length > 3
      · have htrunc : truncateTimeStr time =
            takeStr time 8 ++ "." ++ takeStr ⟨f⟩ 3 := by
          unfold truncateTimeStr
          rw [hdotmem, hparts]
          simp only [List.getD_cons_succ, List.getD_cons_zero, if_pos hlen,
            if_true]
        rw [htrunc]
        have htime8r : (time.data.take 8).length = 8 := htime8
        have htt : takeStr (takeStr time 8 ++ "." ++ takeStr ⟨f⟩ 3) 8 =
            takeStr time 8 := by
          unfold takeStr
          congr 1
          show List.take 8 ((time.data.take 8 ++ ['.']) ++ f.take 3) =
            time.data.take 8
          rw [List.append_assoc]
          exact List.take_left' htime8r
        have htd : dropStr (takeStr time 8 ++ "." ++ takeStr ⟨f⟩ 3) 8 =
            "." ++ takeStr ⟨f⟩ 3 := by
          unfold dropStr
          show (⟨List.drop 8 ((time.data.take 8 ++ ['.']) ++ f.take 3)⟩ : String) =
            "." ++ takeStr ⟨f⟩ 3
          rw [List.append_assoc, List.drop_left' htime8r]
          rfl
        have hfrac2 : isFracShape (dropStr (takeStr time 8 ++ "." ++
            takeStr ⟨f⟩ 3) 8).data = true := by
          rw [htd]
          have hft : ("." ++ takeStr ⟨f⟩ 3).data = '.' :: f.take 3 := by
            simp [String.data_append, takeStr]
          rw [hft]
          unfold isFracShape
          have hne : ¬ (f.take 3).isEmpty = true := by
            cases f with
            | nil => exact absurd rfl hfne
            | cons a t => simp [List.take]
          simp only [Bool.and_eq_true, List.all_eq_true]
          exact ⟨by simpa using hne,
            fun x hx => by simpa using hfdig x (List.mem_of_mem_take hx)⟩
        have hhms2 : isHmsShape (takeStr (takeStr time 8 ++ "." ++
            takeStr ⟨f⟩ 3) 8).data = true := by rw [htt]; exact hhms
        unfold format_datetime_string
        rw [parseNaive_of_shapes date _ hd hhms2 hfrac2,
          parseNaive_of_shapes date time hd hhms hfrac, htt]
      · rw [show truncateTimeStr time = time from by
          unfold truncateTimeStr
          rw [hdotmem, hparts]
          simp only [List.getD_cons_succ, List.getD_cons_zero, if_neg hlen,
            if_true]]

/-- C10 witness: a concrete timestamp with 6 fractional digits formats to
the whole-second form, and formatting commutes with the 3-digit
truncation. -/
theorem C10_format_datetime_witness :
    format_datetime_string ("2024-01-01" ++ " " ++ "12:30:45.123456") =
      .ok ("2024-01-01" ++ "T" ++ takeStr "12:30:45.123456" 8 ++ "Z") ∧
    format_datetime_string ("2024-01-01" ++ " " ++
        truncateTimeStr "12:30:45.123456") =
      format_datetime_string ("2024-01-01" ++ " " ++ "12:30:45.123456") :=
  have h := C10_format_datetime "2024-01-01" "12:30:45.123456"
    (by decide) (by decide) (by decide)
  ⟨h.1, h.2.2.2⟩

/-- C1 counterexample: with an unresolvable product name,
`download_from_csv` RETURNS a summary — recording the configuration error
in its errors list — instead of raising to the caller, refuting the
claimed propagation; it does abort before any network call. -/
theorem C1_config_error_returns_cex :
    (download_from_csv stubEnv dfOneRow ["NOT_A_PRODUCT"] none false none
        [] "t").result.isOk = true ∧
    (download_from_csv stubEnv dfOneRow ["NOT_A_PRODUCT"] none false none
        [] "t").result.map (fun s => s.errors.length) = .ok 1 ∧
    (download_from_csv stubEnv dfOneRow ["NOT_A_PRODUCT"] none false none
        [] "t").netContact = false := by
  refine ⟨rfl, rfl, rfl⟩

/-- C1 (amended): configuration/input errors — an unresolvable product
name, or undetectable date/time columns — abort processing before any
network call, but they do not raise out of the Orchestrator: the error is
recorded in the returned summary's errors list and the summary is returned
(for a missing datetime column the function even returns before writing the
report files); and no invocation ever raises — every call returns a
summary, with every other failure absorbed into its counts and lists. -/
theorem C1_config_errors_absorbed :
    (∀ env df products oc ov rb disk ts e dc tc,
       find_datetime_columns df = (some dc, some tc) →
       resolveProducts products = .error e →
       download_from_csv env df products oc ov rb disk ts =
         ⟨.ok { initSummary with
             errors := [.msg ("Critical error during execution: " ++ e)] },
          disk ++ summaryFileNames ts true, false⟩) ∧
    (∀ env df products oc ov rb disk ts,
       (∀ dc tc, find_datetime_columns df ≠ (some dc, some tc)) →
       download_from_csv env df products oc ov rb disk ts =
         ⟨.ok { initSummary with errors := [.msg (datetimeColsErrMsg df)] },
          disk, false⟩) ∧
    (∀ env df products oc ov rb disk ts,
       ∃ s, (download_from_csv env df products oc ov rb disk ts).result = .ok s) := by
  refine ⟨?_, ?_, ?_⟩
  · intro env df products oc ov rb disk ts e dc tc hcols hres
    simp [download_from_csv, hcols, hres]
  · intro env df products oc ov rb disk ts hcols
    rcases hfind : find_datetime_columns df with ⟨_ | dc, _ | tc⟩
    · simp [download_from_csv, hfind]
    · simp [download_from_csv, hfind]
    · simp [download_from_csv, hfind]
    · exact absurd hfind (hcols dc tc)
  · intro env df products oc ov rb disk ts
    rcases hfind : find_datetime_columns df with ⟨_ | dc, _ | tc⟩
    · exact ⟨_, by simp only [download_from_csv, hfind] <;> rfl⟩
    · exact ⟨_, by simp only [download_from_csv, hfind] <;> rfl⟩
    · exact ⟨_, by simp only [download_from_csv, hfind] <;> rfl⟩
    · cases hres : resolveProducts products with
      | error e =>
        exact ⟨_, by simp only [download_from_csv, hfind, hres] <;> rfl⟩
      | ok pns =>
        cases htpl : env.templateFetch with
        | error e =>
          exact ⟨_, by simp only [download_from_csv, hfind, hres, htpl] <;> rfl⟩
        | ok tpl =>
          exact ⟨_, by simp only [download_from_csv, hfind, hres, htpl] <;> rfl⟩

/-- C1 witness: the unresolvable-product clause at concrete inputs. -/
theorem C1_config_errors_absorbed_witness :
    download_from_csv stubEnv dfOneRow ["NOT_A_PRODUCT"] none false none
        [] "t" =
      ⟨.ok { initSummary with
          errors := [.msg ("Critical error during execution: " ++
            productErrorMsg "NOT_A_PRODUCT")] },
       [] ++ summaryFileNames "t" true, false⟩ :=
  C1_config_errors_absorbed.1 stubEnv dfOneRow ["NOT_A_PRODUCT"] none false
    none [] "t" (productErrorMsg "NOT_A_PRODUCT") "date" "time" (by rfl) (by rfl)

/-! Monotonicity of the download-directory state under `override = false`:
the run only ever appends file names. -/

theorem processEntry_disk_mono (t : String → Nat → Bool) (d : List String)
    (e : SearchEntry) : d <+: (processEntry t false d e).disk := by
  unfold processEntry
  by_cases hex : fileExistsCheck d (fileNameOf e.enclosure) = true
  · rw [if_pos hex, if_neg (by simp : ¬(false = true))]
  · rw [if_neg hex]
    unfold attemptPhase
    cases hloop : (attemptLoop (t (fileNameOf e.enclosure)) 0 max_retries).1 with
    | none => simp only [hloop]; exact List.prefix_rfl
    | some k => simp only [hloop]; exact List.prefix_append d _

/-- The per-entry outcome records either nothing or exactly the entry's
file name as downloaded. -/
theorem processEntry_downloaded_cases (t : String → Nat → Bool) (ov : Bool)
    (d : List String) (e : SearchEntry) :
    (processEntry t ov d e).downloaded = [] ∨
    (processEntry t ov d e).downloaded = [fileNameOf e.enclosure] := by
  unfold processEntry attemptPhase
  cases hloop : (attemptLoop (t (fileNameOf e.enclosure)) 0 max_retries).1 <;>
    simp only [hloop] <;> split_ifs <;> simp

theorem dpFold_mono (t : String → Nat → Bool) :
    ∀ (es : List SearchEntry) (st : DPState),
      st.disk <+: (es.foldl (dpStep t false) st).disk ∧
      st.skipped <+: (es.foldl (dpStep t false) st).skipped := by
  intro es
  induction es with
  | nil => intro st; exact ⟨List.prefix_rfl, List.prefix_rfl⟩
  | cons e es ih =>
    intro st
    have h1 := ih (dpStep t false st e)
    refine ⟨?_, ?_⟩
    · exact (processEntry_disk_mono t st.disk e).trans h1.1
    · exact (List.prefix_append st.skipped _).trans h1.2

theorem dpGroups_disk_mono (authOk : String → Bool) (t : String → Nat → Bool)
    (entries : List SearchEntry) :
    ∀ (servers : List String) (st : DPState),
      st.disk <+: (dpGroups authOk t false entries servers st).disk := by
  intro servers
  induction servers with
  | nil => intro st; exact List.prefix_rfl
  | cons srv rest ih =>
    intro st
    by_cases hauth : authOk srv = true
    · rw [dpGroups, if_pos hauth]
      exact (dpFold_mono t _ st).1.trans (ih _)
    · rw [dpGroups, if_neg hauth]

theorem download_products_disk_mono (authOk : String → Bool)
    (t : String → Nat → Bool) (entries : List SearchEntry) (disk : List String) :
    disk <+: (download_products authOk t entries disk false).disk :=
  dpGroups_disk_mono authOk t entries (serversOf entries) ⟨[], [], [], disk⟩

theorem rowStep_disk_mono (env : Env) (df : DataFrame) (dc tc : String)
    (oc rb : Option String) (st : LoopState) (i : Nat) (row : List String) :
    st.disk <+: (rowStep env df dc tc oc rb false st i row).disk := by
  cases hclass : rowClass env df dc tc oc rb i row with
  | err dt e orb => simp only [rowStep, hclass]; exact List.prefix_rfl
  | empty => simp only [rowStep, hclass]; exact List.prefix_rfl
  | group fil dt orb =>
    simp only [rowStep, hclass]
    cases hdp : (download_products env.authOk env.transport fil st.disk false).res with
    | ok lists =>
      rcases lists with ⟨d, s, f⟩
      simp only [hdp]
      exact download_products_disk_mono env.authOk env.transport fil st.disk
    | error e =>
      simp only [hdp]
      exact download_products_disk_mono env.authOk env.transport fil st.disk

theorem rowLoop_disk_mono (env : Env) (df : DataFrame) (dc tc : String)
    (oc rb : Option String) :
    ∀ (rows : List (List String)) (i : Nat) (st : LoopState),
      st.disk <+: (rowLoop env df dc tc oc rb false i rows st).disk := by
  intro rows
  induction rows with
  | nil => intro i st; exact List.prefix_rfl
  | cons row rest ih =>
    intro i st
    exact (rowStep_disk_mono env df dc tc oc rb st i row).trans (ih (i + 1) _)

/-- The existence check is monotone in the directory contents. -/
theorem fileExistsCheck_mono {d d2 : List String} (h : ∀ x ∈ d, x ∈ d2)
    (f : String) (hex : fileExistsCheck d f = true) :
    fileExistsCheck d2 f = true := by
  simp only [fileExistsCheck, Bool.or_eq_true, List.contains, List.elem_iff,
    List.any_eq_true] at hex ⊢
  rcases hex with ((hx | hx) | hx) | ⟨g, hg, hp⟩
  · exact Or.inl (Or.inl (Or.inl (h _ hx)))
  · exact Or.inl (Or.inl (Or.inr (h _ hx)))
  · exact Or.inl (Or.inr (h _ hx))
  · exact Or.inr ⟨g, h _ hg, hp⟩

/-! Lockstep comparison of a first run (directory `d1`) against a second
run over a directory `d2` that contains `D`, a superset of everything the
first run ever writes.  All lemmas are for `override = false`. -/

theorem lockstep_entry (t : String → Nat → Bool) (e : SearchEntry)
    (d1 d2 D : List String)
    (h1 : ∀ x ∈ (processEntry t false d1 e).disk, x ∈ D)
    (hd1 : ∀ x ∈ d1, x ∈ D)
    (h2 : ∀ x ∈ D, x ∈ d2) :
    (processEntry t false d2 e).disk = d2 ∧
    (processEntry t false d2 e).downloaded = [] ∧
    (∀ g ∈ (processEntry t false d1 e).downloaded,
       g ∈ (processEntry t false d2 e).skipped) := by
  by_cases hex2 : fileExistsCheck d2 (fileNameOf e.enclosure) = true
  · have hskip : processEntry t false d2 e =
        { downloaded := [], skipped := [fileNameOf e.enclosure], failed := [],
          disk := d2, sleeps := 0 } := by
      unfold processEntry
      rw [if_pos hex2, if_neg (by simp : ¬(false = true))]
    refine ⟨by rw [hskip], by rw [hskip], ?_⟩
    intro g hg
    rcases processEntry_downloaded_cases t false d1 e with hc | hc
    · rw [hc] at hg; cases hg
    · rw [hc] at hg
      rcases List.mem_singleton.mp hg with rfl
      rw [hskip]
      exact List.mem_singleton.mpr rfl
  · have hex1 : ¬ fileExistsCheck d1 (fileNameOf e.enclosure) = true := by
      intro hx
      exact hex2 (fileExistsCheck_mono (fun x hx2 => h2 x (hd1 x hx2)) _ hx)
    have hr1 : processEntry t false d1 e =
        attemptPhase t d1 (fileNameOf e.enclosure) := by
      unfold processEntry; rw [if_neg hex1]
    have hr2 : processEntry t false d2 e =
        attemptPhase t d2 (fileNameOf e.enclosure) := by
      unfold processEntry; rw [if_neg hex2]
    cases hloop : (attemptLoop (t (fileNameOf e.enclosure)) 0 max_retries).1 with
    | some k =>
      exfalso
      have hfd : fileNameOf e.enclosure ∈ (processEntry t false d1 e).disk := by
        rw [hr1]
        unfold attemptPhase
        simp only [hloop]
        exact List.mem_append_right _ (List.mem_singleton.mpr rfl)
      have hmem2 : fileNameOf e.enclosure ∈ d2 := h2 _ (h1 _ hfd)
      apply hex2
      simp only [fileExistsCheck, Bool.or_eq_true, List.contains, List.elem_iff]
      exact Or.inl (Or.inl (Or.inl hmem2))
    | none =>
      have hfail2 : attemptPhase t d2 (fileNameOf e.enclosure) =
          { downloaded := [], skipped := [], failed := [fileNameOf e.enclosure],
            disk := d2,
            sleeps := (attemptLoop (t (fileNameOf e.enclosure)) 0 max_retries).2 } := by
        unfold attemptPhase
        simp only [hloop]
      have hfail1 : attemptPhase t d1 (fileNameOf e.enclosure) =
          { downloaded := [], skipped := [], failed := [fileNameOf e.enclosure],
            disk := d1,
            sleeps := (attemptLoop (t (fileNameOf e.enclosure)) 0 max_retries).2 } := by
        unfold attemptPhase
        simp only [hloop]
      refine ⟨by rw [hr2, hfail2], by rw [hr2, hfail2], ?_⟩
      intro g hg
      rw [hr1, hfail1] at hg
      cases hg

theorem lockstep_fold (t : String → Nat → Bool) :
    ∀ (es : List SearchEntry) (st1 st2 : DPState) (D : List String),
      (∀ x ∈ (es.foldl (dpStep t false) st1).disk, x ∈ D) →
      (∀ x ∈ st1.disk, x ∈ D) →
      (∀ x ∈ D, x ∈ st2.disk) →
      (es.foldl (dpStep t false) st2).disk = st2.disk ∧
      (es.foldl (dpStep t false) st2).downloaded = st2.downloaded ∧
      st2.skipped <+: (es.foldl (dpStep t false) st2).skipped ∧
      (∀ g ∈ (es.foldl (dpStep t false) st1).downloaded,
         g ∈ st1.downloaded ∨ g ∈ (es.foldl (dpStep t false) st2).skipped) := by
  intro es
  induction es with
  | nil =>
    intro st1 st2 D h1 hd1 h2
    exact ⟨rfl, rfl, List.prefix_rfl, fun g hg => Or.inl hg⟩
  | cons e es ih =>
    intro st1 st2 D h1 hd1 h2
    rw [List.foldl_cons] at h1
    have hmono1 : ∀ x ∈ (dpStep t false st1 e).disk, x ∈ D := fun x hx =>
      h1 x ((dpFold_mono t es (dpStep t false st1 e)).1.subset hx)
    have hpe1 : ∀ x ∈ (processEntry t false st1.disk e).disk, x ∈ D := hmono1
    obtain ⟨r2disk, r2dl, r2skip⟩ :=
      lockstep_entry t e st1.disk st2.disk D hpe1 hd1 h2
    have hst2disk : (dpStep t false st2 e).disk = st2.disk := r2disk
    have hst2dl : (dpStep t false st2 e).downloaded = st2.downloaded := by
      show st2.downloaded ++ (processEntry t false st2.disk e).downloaded =
        st2.downloaded
      rw [r2dl, List.append_nil]
    have h2a : ∀ x ∈ D, x ∈ (dpStep t false st2 e).disk := by
      rw [hst2disk]; exact h2
    obtain ⟨ihdisk, ihdl, ihskip, ihdown⟩ :=
      ih (dpStep t false st1 e) (dpStep t false st2 e) D h1 hmono1 h2a
    refine ⟨?_, ?_, ?_, ?_⟩
    · rw [List.foldl_cons, ihdisk, hst2disk]
    · rw [List.foldl_cons, ihdl, hst2dl]
    · rw [List.foldl_cons]
      exact (List.prefix_append st2.skipped _).trans ihskip
    · intro g hg
      rw [List.foldl_cons] at hg
      rcases ihdown g hg with hgl | hgr
      · rcases List.mem_append.mp hgl with hgll | hglr
        · exact Or.inl hgll
        · right
          rw [List.foldl_cons]
          exact (dpFold_mono t es (dpStep t false st2 e)).2.subset
            (List.mem_append_right _ (r2skip g hglr))
      · right
        rw [List.foldl_cons]
        exact hgr

theorem lockstep_groups (authOk : String → Bool) (t : String → Nat → Bool)
    (entries : List SearchEntry) :
    ∀ (servers : List String) (st1 st2 : DPState) (D : List String),
      (∀ x ∈ (dpGroups authOk t false entries servers st1).disk, x ∈ D) →
      (∀ x ∈ st1.disk, x ∈ D) →
      (∀ x ∈ D, x ∈ st2.disk) →
      (dpGroups authOk t false entries servers st2).disk = st2.disk ∧
      (∀ e1, (dpGroups authOk t false entries servers st1).res = .error e1 →
         (dpGroups authOk t false entries servers st2).res = .error e1) ∧
      (∀ d1 s1 f1,
         (dpGroups authOk t false entries servers st1).res = .ok (d1, s1, f1) →
         ∃ d2 s2 f2,
           (dpGroups authOk t false entries servers st2).res = .ok (d2, s2, f2) ∧
           d2 = st2.downloaded ∧ st2.skipped <+: s2 ∧
           (∀ g ∈ d1, g ∈ st1.downloaded ∨ g ∈ s2)) := by
  intro servers
  induction servers with
  | nil =>
    intro st1 st2 D h1 hd1 h2
    refine ⟨rfl, ?_, ?_⟩
    · intro e1 he1; cases he1
    · intro d1 s1 f1 hok
      have h := Except.ok.inj hok
      injection h with h1x h23
      injection h23 with h2x h3x
      subst h1x; subst h2x; subst h3x
      exact ⟨st2.downloaded, st2.skipped, st2.failed, rfl, rfl,
        List.prefix_rfl, fun g hg => Or.inl hg⟩
  | cons srv rest ih =>
    intro st1 st2 D h1 hd1 h2
    by_cases hauth : authOk srv = true
    · rw [dpGroups, if_pos hauth] at h1 ⊢
      rw [dpGroups, if_pos hauth]
      have hfold1disk : ∀ x ∈ ((entries.filter
          (fun e => serverOf e.enclosure == srv)).foldl
            (dpStep t false) st1).disk, x ∈ D := fun x hx =>
        h1 x ((dpGroups_disk_mono authOk t entries rest _).subset hx)
      obtain ⟨f2disk, f2dl, f2skip, f2down⟩ :=
        lockstep_fold t (entries.filter (fun e => serverOf e.enclosure == srv))
          st1 st2 D hfold1disk hd1 h2
      have h2a : ∀ x ∈ D, x ∈ ((entries.filter
          (fun e => serverOf e.enclosure == srv)).foldl
            (dpStep t false) st2).disk := by
        rw [f2disk]; exact h2
      obtain ⟨ihdisk, iherr, ihok⟩ := ih _ _ D h1 hfold1disk h2a
      refine ⟨?_, ?_, ?_⟩
      · rw [ihdisk, f2disk]
      · exact iherr
      · intro d1 s1 f1 hok
        obtain ⟨d2, s2, f2, hok2, hd2, hs2, hdown⟩ := ihok d1 s1 f1 hok
        refine ⟨d2, s2, f2, hok2, by rw [hd2, f2dl], f2skip.trans hs2, ?_⟩
        intro g hg
        rcases hdown g hg with hgl | hgr
        · rcases f2down g hgl with hgll | hglr
          · exact Or.inl hgll
          · exact Or.inr (hs2.subset hglr)
        · exact Or.inr hgr
    · rw [dpGroups, if_neg hauth] at h1 ⊢
      rw [dpGroups, if_neg hauth]
      refine ⟨rfl, ?_, ?_⟩
      · intro e1 he1
        exact he1 ▸ rfl
      · intro d1 s1 f1 hok
        cases hok

theorem rowStep_skipped_mono (env : Env) (df : DataFrame) (dc tc : String)
    (oc rb : Option String) (st : LoopState) (i : Nat) (row : List String) :
    st.skipped <+: (rowStep env df dc tc oc rb false st i row).skipped := by
  cases hclass : rowClass env df dc tc oc rb i row with
  | err dt e orb => simp only [rowStep, hclass]; exact List.prefix_rfl
  | empty => simp only [rowStep, hclass]; exact List.prefix_rfl
  | group fil dt orb =>
    simp only [rowStep, hclass]
    cases hdp : (download_products env.authOk env.transport fil st.disk false).res with
    | ok lists =>
      rcases lists with ⟨d, s, f⟩
      simp only [hdp]
      exact List.prefix_append st.skipped s
    | error e =>
      simp only [hdp]
      exact List.prefix_rfl

theorem rowLoop_skipped_mono (env : Env) (df : DataFrame) (dc tc : String)
    (oc rb : Option String) :
    ∀ (rows : List (List String)) (i : Nat) (st : LoopState),
      st.skipped <+: (rowLoop env df dc tc oc rb false i rows st).skipped := by
  intro rows
  induction rows with
  | nil => intro i st; exact List.prefix_rfl
  | cons row rest ih =>
    intro i st
    exact (rowStep_skipped_mono env df dc tc oc rb st i row).trans (ih (i + 1) _)

theorem lockstep_rowStep (env : Env) (df : DataFrame) (dc tc : String)
    (oc rb : Option String) (st1 st2 : LoopState) (D : List String)
    (i : Nat) (row : List String)
    (h1 : ∀ x ∈ (rowStep env df dc tc oc rb false st1 i row).disk, x ∈ D)
    (hd1 : ∀ x ∈ st1.disk, x ∈ D)
    (h2 : ∀ x ∈ D, x ∈ st2.disk) :
    (rowStep env df dc tc oc rb false st2 i row).disk = st2.disk ∧
    (rowStep env df dc tc oc rb false st2 i row).downloaded = st2.downloaded ∧
    st2.skipped <+: (rowStep env df dc tc oc rb false st2 i row).skipped ∧
    (∀ g ∈ (rowStep env df dc tc oc rb false st1 i row).downloaded,
       g ∈ st1.downloaded ∨
         g ∈ (rowStep env df dc tc oc rb false st2 i row).skipped) := by
  cases hclass : rowClass env df dc tc oc rb i row with
  | err dt e orb =>
    refine ⟨?_, ?_, ?_, ?_⟩
    · simp only [rowStep, hclass]
    · simp only [rowStep, hclass]
    · simp only [rowStep, hclass]
      try exact List.prefix_rfl
    · intro g hg
      simp only [rowStep, hclass] at hg ⊢
      exact Or.inl hg
  | empty =>
    refine ⟨?_, ?_, ?_, ?_⟩
    · simp only [rowStep, hclass]
    · simp only [rowStep, hclass]
    · simp only [rowStep, hclass]
      try exact List.prefix_rfl
    · intro g hg
      simp only [rowStep, hclass] at hg ⊢
      exact Or.inl hg
  | group fil dt orb =>
    simp only [rowStep, hclass] at h1 ⊢
    cases hdp1 : (download_products env.authOk env.transport fil st1.disk false).res with
    | ok lists1 =>
      rcases lists1 with ⟨d1, s1, f1⟩
      simp only [hdp1] at h1
      have hgrp := lockstep_groups env.authOk env.transport fil
        (serversOf fil) ⟨[], [], [], st1.disk⟩ ⟨[], [], [], st2.disk⟩ D
        h1 hd1 h2
      obtain ⟨d2, s2, f2, hok2, hd2, hs2, hdown⟩ := hgrp.2.2 d1 s1 f1 hdp1
      have hok2d : (download_products env.authOk env.transport fil st2.disk
          false).res = .ok (d2, s2, f2) := hok2
      have hdisk2 : (download_products env.authOk env.transport fil st2.disk
          false).disk = st2.disk := hgrp.1
      refine ⟨?_, ?_, ?_, ?_⟩
      · simp only [hok2d]
        exact hdisk2
      · simp only [hok2d]
        show st2.downloaded ++ d2 = st2.downloaded
        rw [hd2, List.append_nil]
      · simp only [hok2d]
        exact List.prefix_append st2.skipped s2
      · intro g hg
        simp only [hdp1] at hg
        simp only [hok2d]
        rcases List.mem_append.mp hg with hgl | hgr
        · exact Or.inl hgl
        · rcases hdown g hgr with hx | hx
          · cases hx
          · exact Or.inr (List.mem_append_right _ hx)
    | error e1 =>
      simp only [hdp1] at h1
      have hgrp := lockstep_groups env.authOk env.transport fil
        (serversOf fil) ⟨[], [], [], st1.disk⟩ ⟨[], [], [], st2.disk⟩ D
        h1 hd1 h2
      have herr2d : (download_products env.authOk env.transport fil st2.disk
          false).res = .error e1 := hgrp.2.1 e1 hdp1
      refine ⟨?_, ?_, ?_, ?_⟩
      · simp only [herr2d]
        exact hgrp.1
      · simp only [herr2d]
      · simp only [herr2d]
        try exact List.prefix_rfl
      · intro g hg
        simp only [hdp1] at hg
        exact Or.inl hg

theorem lockstep_rowLoop (env : Env) (df : DataFrame) (dc tc : String)
    (oc rb : Option String) :
    ∀ (rows : List (List String)) (i : Nat) (st1 st2 : LoopState) (D : List String),
      (∀ x ∈ (rowLoop env df dc tc oc rb false i rows st1).disk, x ∈ D) →
      (∀ x ∈ st1.disk, x ∈ D) →
      (∀ x ∈ D, x ∈ st2.disk) →
      (rowLoop env df dc tc oc rb false i rows st2).disk = st2.disk ∧
      (rowLoop env df dc tc oc rb false i rows st2).downloaded = st2.downloaded ∧
      (∀ g ∈ (rowLoop env df dc tc oc rb false i rows st1).downloaded,
         g ∈ st1.downloaded ∨
           g ∈ (rowLoop env df dc tc oc rb false i rows st2).skipped) := by
  intro rows
  induction rows with
  | nil =>
    intro i st1 st2 D h1 hd1 h2
    exact ⟨rfl, rfl, fun g hg => Or.inl hg⟩
  | cons row rest ih =>
    intro i st1 st2 D h1 hd1 h2
    rw [rowLoop] at h1 ⊢
    rw [rowLoop]
    have hstep1disk : ∀ x ∈ (rowStep env df dc tc oc rb false st1 i row).disk,
        x ∈ D := fun x hx =>
      h1 x ((rowLoop_disk_mono env df dc tc oc rb rest (i + 1) _).subset hx)
    obtain ⟨s2disk, s2dl, s2skip, s2down⟩ :=
      lockstep_rowStep env df dc tc oc rb st1 st2 D i row hstep1disk hd1 h2
    have h2a : ∀ x ∈ D, x ∈ (rowStep env df dc tc oc rb false st2 i row).disk := by
      rw [s2disk]; exact h2
    obtain ⟨ihdisk, ihdl, ihdown⟩ :=
      ih (i + 1) (rowStep env df dc tc oc rb false st1 i row)
        (rowStep env df dc tc oc rb false st2 i row) D h1 hstep1disk h2a
    refine ⟨?_, ?_, ?_⟩
    · rw [ihdisk, s2disk]
    · rw [ihdl, s2dl]
    · intro g hg
      rcases ihdown g hg with hgl | hgr
      · rcases s2down g hgl with hgll | hglr
        · exact Or.inl hgll
        · exact Or.inr ((rowLoop_skipped_mono env df dc tc oc rb rest (i + 1)
            _).subset hglr)
      · exact Or.inr hgr

/-- C9 counterexample: a second identical run does NOT leave the set of
files on disk unchanged — each run appends its own timestamp-suffixed
summary and log report files to the destination directory. -/
theorem C9_disk_changed_cex :
    "download_summary_t2.txt" ∈
      (download_from_csv stubEnv dfNoRows ["ANOM"] none false none
        (download_from_csv stubEnv dfNoRows ["ANOM"] none false none
          [] "t1").disk "t2").disk ∧
    "download_summary_t2.txt" ∉
      (download_from_csv stubEnv dfNoRows ["ANOM"] none false none
        [] "t1").disk ∧
    (download_from_csv stubEnv dfNoRows ["ANOM"] none false none
      (download_from_csv stubEnv dfNoRows ["ANOM"] none false none
        [] "t1").disk "t2").disk ≠
    (download_from_csv stubEnv dfNoRows ["ANOM"] none false none
      [] "t1").disk := by
  decide

/-- C9 (amended): re-running `download_from_csv` with the same inputs,
environment and destination directory and `override = false` produces zero
additional downloads — every file downloaded by the first run lands in the
second run's skipped list — and adds no product file to the directory: the
only files the second run adds are its own timestamp-suffixed report
files (none at all when the run aborts on missing datetime columns). -/
theorem C9_second_run_idempotent :
    ∀ env df products oc rb disk0 ts1 ts2 s1 s2,
      (download_from_csv env df products oc false rb disk0 ts1).result = .ok s1 →
      (download_from_csv env df products oc false rb
        (download_from_csv env df products oc false rb disk0 ts1).disk
        ts2).result = .ok s2 →
      s2.downloaded_files = [] ∧
      (∀ f ∈ s1.downloaded_files, f ∈ s2.skipped_files) ∧
      (download_from_csv env df products oc false rb
        (download_from_csv env df products oc false rb disk0 ts1).disk
        ts2).disk =
      (download_from_csv env df products oc false rb disk0 ts1).disk ++
        (if hasDatetimeCols df then
          summaryFileNames ts2 (!s2.errors.isEmpty) else []) := by
  intro env df products oc rb disk0 ts1 ts2 s1 s2 h1 h2
  rcases hfind : find_datetime_columns df with ⟨_ | dc, _ | tc⟩
  case mk.none.none | mk.none.some | mk.some.none =>
    have hcols : hasDatetimeCols df = false := by
      simp [hasDatetimeCols, hfind]
    simp only [download_from_csv, hfind] at h1 h2 ⊢
    obtain rfl := Except.ok.inj h1
    obtain rfl := Except.ok.inj h2
    refine ⟨rfl, fun f hf => absurd hf (by simp [initSummary]), ?_⟩
    simp [hcols]
  case mk.some.some =>
    have hcols : hasDatetimeCols df = true := by
      simp [hasDatetimeCols, hfind]
    cases hres : resolveProducts products with
    | error e =>
      simp only [download_from_csv, hfind, hres] at h1 h2 ⊢
      obtain rfl := Except.ok.inj h1
      obtain rfl := Except.ok.inj h2
      refine ⟨rfl, fun f hf => absurd hf (by simp [initSummary]), ?_⟩
      simp [hcols, initSummary]
    | ok pns =>
      cases htpl : env.templateFetch with
      | error e =>
        simp only [download_from_csv, hfind, hres, htpl] at h1 h2 ⊢
        obtain rfl := Except.ok.inj h1
        obtain rfl := Except.ok.inj h2
        refine ⟨rfl, fun f hf => absurd hf (by simp [initSummary]), ?_⟩
        simp [hcols, initSummary]
      | ok tpl =>
        simp only [download_from_csv, hfind, hres, htpl] at h1 h2 ⊢
        obtain rfl := Except.ok.inj h1
        obtain rfl := Except.ok.inj h2
        have hd1 : ∀ x ∈ disk0, x ∈
            (rowLoop env df dc tc oc rb false 0 df.cells
              ⟨disk0, 0, [], [], [], []⟩).disk ++
            summaryFileNames ts1
              (!(rowLoop env df dc tc oc rb false 0 df.cells
                ⟨disk0, 0, [], [], [], []⟩).errors.isEmpty) := by
          intro x hx
          exact List.mem_append_left _
            ((rowLoop_disk_mono env df dc tc oc rb df.cells 0
              ⟨disk0, 0, [], [], [], []⟩).subset hx)
        have h1sub : ∀ x ∈ (rowLoop env df dc tc oc rb false 0 df.cells
            ⟨disk0, 0, [], [], [], []⟩).disk, x ∈
            (rowLoop env df dc tc oc rb false 0 df.cells
              ⟨disk0, 0, [], [], [], []⟩).disk ++
            summaryFileNames ts1
              (!(rowLoop env df dc tc oc rb false 0 df.cells
                ⟨disk0, 0, [], [], [], []⟩).errors.isEmpty) := by
          intro x hx
          exact List.mem_append_left _ hx
        obtain ⟨l2disk, l2dl, l2down⟩ :=
          lockstep_rowLoop env df dc tc oc rb df.cells 0
            ⟨disk0, 0, [], [], [], []⟩
            ⟨(rowLoop env df dc tc oc rb false 0 df.cells
                ⟨disk0, 0, [], [], [], []⟩).disk ++
              summaryFileNames ts1
                (!(rowLoop env df dc tc oc rb false 0 df.cells
                  ⟨disk0, 0, [], [], [], []⟩).errors.isEmpty),
              0, [], [], [], []⟩
            ((rowLoop env df dc tc oc rb false 0 df.cells
                ⟨disk0, 0, [], [], [], []⟩).disk ++
              summaryFileNames ts1
                (!(rowLoop env df dc tc oc rb false 0 df.cells
                  ⟨disk0, 0, [], [], [], []⟩).errors.isEmpty))
            h1sub hd1 (fun x hx => hx)
        refine ⟨l2dl, ?_, ?_⟩
        · intro f hf
          rcases l2down f hf with hx | hx
          · cases hx
          · exact hx
        · rw [l2disk, hcols]
          simp

/-- C9 witness: one concrete row whose single file downloads on the first
run and is skipped by the second — the amended theorem applied at a
concrete environment, with both run summaries computed. -/
theorem C9_second_run_idempotent_witness :
    ("ECA_EXAA_f1.zip" : String) ∈
      ({ total_entries := 1, processed_entries := 1, downloaded_files := [],
          skipped_files := ["ECA_EXAA_f1.zip"], failed_files := [],
          errors := [] } : Summary).skipped_files :=
  (C9_second_run_idempotent envOneFile dfOneRow ["ANOM"] none none [] "t1" "t2"
    { total_entries := 1, processed_entries := 1,
      downloaded_files := ["ECA_EXAA_f1.zip"], skipped_files := [],
      failed_files := [], errors := [] }
    { total_entries := 1, processed_entries := 1, downloaded_files := [],
      skipped_files := ["ECA_EXAA_f1.zip"], failed_files := [], errors := [] }
    (by rfl) (by rfl)).2.1 "ECA_EXAA_f1.zip" (by decide)

end EarthCare
